import Mathlib

/-!
Verification development for the flood-control ETL-and-reporting pipeline
(`MCO2_3_Rust.rs`).  The Rust source is shallowly embedded: `f64` values are
modelled as exact rationals (`ℚ`), `i32`/`i64` as `Int` (overflow is observably
irrelevant here: the only `i32` parse whose overflow could matter feeds a range
check `2021 ≤ y ≤ 2023` that rejects every out-of-`i32`-range value anyway),
strings as Lean `String`/`List Char`, and `HashMap`-based grouping as
insertion-ordered association lists (the set of groups is iteration-order
independent, which is all the claims depend on).
-/

namespace MCO2

/-- Model of Rust `str::trim`: drop whitespace from both ends. -/
def trimChars (cs : List Char) : List Char :=
  ((cs.dropWhile Char.isWhitespace).reverse.dropWhile Char.isWhitespace).reverse

/-- Model of Rust `str::split(sep)`: split a character list at every
occurrence of `sep`; `"a|b"` gives `["a","b"]`, `"ab"` gives `["ab"]`,
separators at the ends produce empty pieces. -/
def splitChars (sep : Char) : List Char → List (List Char)
  | [] => [[]]
  | c :: cs =>
    if c = sep then [] :: splitChars sep cs
    else
      match splitChars sep cs with
      | [] => [[c]]
      | p :: ps => (c :: p) :: ps

/-- Digit characters of a natural number, most significant first, via a
structurally recursive fuel loop (`n` itself is enough fuel since `n < 10 ^ n`
for the numbers arising here).  Models the decimal rendering used by Rust's
`{}`/`{:.k}` formatting of integers. -/
def natToCharsAux : Nat → Nat → List Char
  | 0, _ => []
  | fuel + 1, n =>
    if n = 0 then []
    else natToCharsAux fuel (n / 10) ++ [Nat.digitChar (n % 10)]

/-- Decimal rendering of a natural number (`0` renders as `"0"`). -/
def natToChars (n : Nat) : List Char :=
  if n = 0 then ['0'] else natToCharsAux n n

/-- Decimal rendering of an integer, as Rust `format!("{}", i)` produces. -/
def intToChars (i : Int) : List Char :=
  if i < 0 then '-' :: natToChars i.natAbs else natToChars i.natAbs

/-- Numeric value of a digit string, accumulated left to right exactly like a
decimal parser. -/
def charsToNat (cs : List Char) : Nat :=
  cs.foldl (fun a c => a * 10 + (c.toNat - 48)) 0

/-- Model of Rust `str::parse::<i32>` on a character list: an optional single
sign followed by at least one decimal digit, nothing else.  Overflow is not
modelled (see the header comment). -/
def parseIntChars (cs : List Char) : Option Int :=
  match cs with
  | [] => none
  | c :: rest =>
    if c = '-' then
      if rest ≠ [] ∧ rest.all Char.isDigit then some (-(charsToNat rest : Int)) else none
    else if c = '+' then
      if rest ≠ [] ∧ rest.all Char.isDigit then some ((charsToNat rest : Int)) else none
    else
      if cs.all Char.isDigit then some ((charsToNat cs : Int)) else none

/-- The unsigned part of the decimal grammar: leading digits, then optionally
a point followed by digit-only fraction text; at least one digit overall. -/
def parseDecCore (sign : ℚ) (body : List Char) : Option ℚ :=
  let ip := body.takeWhile Char.isDigit
  let rest2 := body.dropWhile Char.isDigit
  match rest2 with
  | [] => if ip = [] then none else some (sign * (charsToNat ip : ℚ))
  | d :: fr =>
    if d = '.' then
      if fr.all Char.isDigit ∧ (ip ≠ [] ∨ fr ≠ []) then
        some (sign * ((charsToNat ip : ℚ) + (charsToNat fr : ℚ) / 10 ^ fr.length))
      else none
    else none

/-- Model of Rust `str::parse::<f64>` restricted to the plain decimal fragment
of its grammar (optional sign, digits, optional point, digits); the special
forms `inf`/`NaN` and exponents are not exercised by this pipeline's data or
by any claim, and are parsed here as failures. -/
def parseDecChars (cs : List Char) : Option ℚ :=
  match cs with
  | [] => none
  | c :: rest =>
    if c = '-' then parseDecCore (-1) rest
    else if c = '+' then parseDecCore 1 rest
    else parseDecCore 1 cs

/-- A calendar date, modelling `chrono::NaiveDate`. -/
structure Date where
  year : Int
  month : Nat
  day : Nat
  deriving DecidableEq

/-- Days in a month under the Gregorian leap rule. -/
def daysInMonth (y : Int) (m : Nat) : Nat :=
  if m = 1 ∨ m = 3 ∨ m = 5 ∨ m = 7 ∨ m = 8 ∨ m = 10 ∨ m = 12 then 31
  else if m = 4 ∨ m = 6 ∨ m = 9 ∨ m = 11 then 30
  else if (y % 4 = 0 ∧ y % 100 ≠ 0) ∨ y % 400 = 0 then 29
  else 28

/-- Model of `NaiveDate::parse_from_str(s, "%Y-%m-%d")`: three dash-separated
all-digit components forming a real calendar date; anything else fails. -/
def parseDateChars (cs : List Char) : Option Date :=
  match splitChars '-' cs with
  | [ys, ms, ds] =>
    if ys ≠ [] ∧ ys.all Char.isDigit ∧ ms ≠ [] ∧ ms.all Char.isDigit ∧
       ds ≠ [] ∧ ds.all Char.isDigit then
      let y : Int := charsToNat ys
      let m := charsToNat ms
      let d := charsToNat ds
      if 1 ≤ m ∧ m ≤ 12 ∧ 1 ≤ d ∧ d ≤ daysInMonth y m then
        some ⟨y, m, d⟩
      else none
    else none
  | _ => none

/-- Days since the civil epoch 1970-01-01 (Hinnant's days-from-civil
computation; all intermediate quantities are nonnegative for parseable dates,
so the division convention is immaterial).  Models the day count behind
`chrono`'s date subtraction. -/
def toEpochDays (dt : Date) : Int :=
  let y := if dt.month ≤ 2 then dt.year - 1 else dt.year
  let m : Int := dt.month
  let era := (if 0 ≤ y then y else y - 399) / 400
  let yoe := y - era * 400
  let doy := (153 * (if 2 < m then m - 3 else m + 9) + 2) / 5 + (dt.day : Int) - 1
  let doe := yoe * 365 + yoe / 4 - yoe / 100 + doy
  era * 146097 + doe - 719468

/-- One raw CSV row, all fields unparsed text (struct `RawRecord`). -/
structure RawRecord where
  region : String
  main_island : String
  funding_year : String
  approved_budget_for_contract : String
  contract_cost : String
  start_date : String
  actual_completion_date : String
  project_latitude : String
  project_longitude : String
  province : String
  contractor : String
  type_of_work : String
  deriving DecidableEq

/-- Typed projection of a raw row (struct `CleanedRecord`). -/
structure CleanedRecord where
  region : String
  main_island : String
  funding_year : Int
  approved_budget_for_contract : ℚ
  contract_cost : ℚ
  start_date : Option Date
  actual_completion_date : Option Date
  project_latitude : Option ℚ
  project_longitude : Option ℚ
  province : String
  contractor : String
  type_of_work : String
  deriving DecidableEq

/-- Cleaned record plus the two derived metrics (struct `ProcessedRecord`). -/
structure ProcessedRecord where
  region : String
  main_island : String
  funding_year : Int
  approved_budget_for_contract : ℚ
  contract_cost : ℚ
  start_date : Option Date
  actual_completion_date : Option Date
  project_latitude : Option ℚ
  project_longitude : Option ℚ
  province : String
  contractor : String
  type_of_work : String
  cost_savings : ℚ
  completion_delay_days : Option Int
  deriving DecidableEq

/-- Result of validating one raw row (struct `ValidationResult`). -/
structure ValidationResult where
  is_valid : Bool
  errors : List String
  deriving DecidableEq

/-- `validate_date`: blank or `"N/A"` yields absence, otherwise a strict
`YYYY-MM-DD` parse whose failure also yields absence. -/
def validate_date (s : String) : Option Date :=
  if trimChars s.data = [] ∨ s = "N/A" then none
  else parseDateChars s.data

/-- `validate_number`: blank or `"N/A"` yields absence; otherwise commas are
removed, the result is trimmed, and parsed as a float (`none` on failure). -/
def validate_number (s : String) : Option ℚ :=
  if trimChars s.data = [] ∨ s = "N/A" then none
  else parseDecChars (trimChars (s.data.filter (fun c => ¬ c = ',')))

/-- `is_valid_year`: the dataset's expected year window. -/
def is_valid_year (y : Int) : Prop :=
  2021 ≤ y ∧ y ≤ 2023

instance (y : Int) : Decidable (is_valid_year y) := by
  unfold is_valid_year; infer_instance

/-- `validate_record`: the five independent field checks, errors in source
order; a record with no errors is valid. -/
def validate_record (r : RawRecord) : ValidationResult :=
  let e1 := if trimChars r.region.data = [] then ["Missing Region"] else []
  let e2 := if trimChars r.main_island.data = [] then ["Missing MainIsland"] else []
  let yr := parseIntChars r.funding_year.data
  let yearOk : Bool := match yr with | none => false | some y => decide (is_valid_year y)
  let e3 :=
    if yr.isNone ∨ yearOk = false then
      ["Invalid FundingYear: " ++ r.funding_year]
    else []
  let e4 := if trimChars r.approved_budget_for_contract.data = [] then
      ["Missing ApprovedBudgetForContract"] else []
  let e5 := if trimChars r.contract_cost.data = [] then ["Missing ContractCost"] else []
  let errors := e1 ++ e2 ++ e3 ++ e4 ++ e5
  ⟨errors.isEmpty, errors⟩

/-- `clean_record`: `none` if validation fails; otherwise the required numeric
fields must parse (`?`-propagation), optional fields degrade to absence, and
blank contractor/type default to `"Unknown"`. -/
def clean_record (r : RawRecord) : Option CleanedRecord :=
  if ¬ (validate_record r).is_valid then none
  else
    (validate_number r.approved_budget_for_contract).bind fun approved_budget =>
    (validate_number r.contract_cost).bind fun cost =>
    (parseIntChars r.funding_year.data).bind fun funding_year =>
    some
      { region := r.region
        main_island := r.main_island
        funding_year := funding_year
        approved_budget_for_contract := approved_budget
        contract_cost := cost
        start_date := validate_date r.start_date
        actual_completion_date := validate_date r.actual_completion_date
        project_latitude := validate_number r.project_latitude
        project_longitude := validate_number r.project_longitude
        province := r.province
        contractor := if trimChars r.contractor.data = [] then "Unknown" else r.contractor
        type_of_work := if trimChars r.type_of_work.data = [] then "Unknown" else r.type_of_work }

/-- `calculate_cost_savings`. -/
def calculate_cost_savings (approved_budget cost : ℚ) : ℚ :=
  approved_budget - cost

/-- `calculate_completion_delay`: day difference when both dates are present. -/
def calculate_completion_delay (s c : Option Date) : Option Int :=
  match s, c with
  | some a, some b => some (toEpochDays b - toEpochDays a)
  | _, _ => none

/-- `add_derived_fields`. -/
def add_derived_fields (r : CleanedRecord) : ProcessedRecord :=
  { region := r.region
    main_island := r.main_island
    funding_year := r.funding_year
    approved_budget_for_contract := r.approved_budget_for_contract
    contract_cost := r.contract_cost
    start_date := r.start_date
    actual_completion_date := r.actual_completion_date
    project_latitude := r.project_latitude
    project_longitude := r.project_longitude
    province := r.province
    contractor := r.contractor
    type_of_work := r.type_of_work
    cost_savings := calculate_cost_savings r.approved_budget_for_contract r.contract_cost
    completion_delay_days := calculate_completion_delay r.start_date r.actual_completion_date }

/-- Known latitudes of a province (the per-province latitude vector built by
`impute_coordinates`' first pass, in record order). -/
def provinceLatsOf (records : List ProcessedRecord) (p : String) : List ℚ :=
  (records.filter (fun r => r.province = p)).filterMap (fun r => r.project_latitude)

/-- Known longitudes of a province. -/
def provinceLngsOf (records : List ProcessedRecord) (p : String) : List ℚ :=
  (records.filter (fun r => r.province = p)).filterMap (fun r => r.project_longitude)

/-- Arithmetic mean of a coordinate list, absent when the list is empty
(the second pass of `impute_coordinates`). -/
def avgOpt (l : List ℚ) : Option ℚ :=
  if l = [] then none else some (l.sum / l.length)

/-- The `province_averages` lookup of `impute_coordinates`: an entry exists
exactly for each nonempty province occurring in the data (records with empty
province are skipped when the map is built). -/
def provinceAvg (records : List ProcessedRecord) (p : String) :
    Option (Option ℚ × Option ℚ) :=
  if p = "" ∨ (records.filter (fun r => r.province = p)) = [] then none
  else some (avgOpt (provinceLatsOf records p), avgOpt (provinceLngsOf records p))

/-- The in-place coordinate fill performed on one record by
`impute_coordinates`' final loop (`all` is the full dataset the averages were
computed from). -/
def imputeOne (all : List ProcessedRecord) (r : ProcessedRecord) : ProcessedRecord :=
  if r.project_latitude = none ∨ r.project_longitude = none then
    match provinceAvg all r.province with
    | some (avg_lat, avg_lng) =>
      { r with
        project_latitude := if r.project_latitude = none then avg_lat else r.project_latitude
        project_longitude := if r.project_longitude = none then avg_lng else r.project_longitude }
    | none => r
  else r

/-- `impute_coordinates`: fill missing coordinates from province averages
computed over the whole input. -/
def impute_coordinates (records : List ProcessedRecord) : List ProcessedRecord :=
  records.map (imputeOne records)

/-- `filter_by_year_range`. -/
def filter_by_year_range (records : List ProcessedRecord) (start_year end_year : Int) :
    List ProcessedRecord :=
  records.filter (fun r => start_year ≤ r.funding_year ∧ r.funding_year ≤ end_year)

/-- Rust `f64::round`: nearest integer, ties away from zero. -/
def roundRust (q : ℚ) : Int :=
  if 0 ≤ q then ⌊q + 1 / 2⌋ else -⌊-q + 1 / 2⌋

/-- Left-pad the decimal rendering of `m` with zeros to width `w` (the
fractional digits of a fixed-decimal rendering). -/
def padZeros (m w : Nat) : List Char :=
  List.replicate (w - (natToChars m).length) '0' ++ natToChars m

/-- Model of `format!("{:.d$}", x)` for the exact rational
`x = roundRust (value * 10 ^ d) / 10 ^ d` produced inside `format_number`:
because `x` has at most `d` decimal digits, the rendering is the exact
fixed-decimal digit string of `x` (Rust's own formatting rounds again, but on
an exact value that second rounding is the identity).  Negative zero, a pure
floating-point artifact, does not exist in `ℚ` and is rendered unsigned. -/
def plainFixed (value : ℚ) (decimals : Nat) : List Char :=
  let n := roundRust (value * 10 ^ decimals)
  let a := n.natAbs
  let sign : List Char := if n < 0 then ['-'] else []
  if decimals = 0 then sign ++ natToChars a
  else sign ++ natToChars (a / 10 ^ decimals) ++ '.' :: padZeros (a % 10 ^ decimals) decimals

/-- The comma-insertion loop of `format_with_commas`, acting on the reversed
digit list: a comma is emitted before the `i`-th character (from the right)
whenever `0 < i` and `i % 3 = 0`. -/
def commaRev : Nat → List Char → List Char
  | _, [] => []
  | i, c :: cs => (if 0 < i ∧ i % 3 = 0 then [',', c] else [c]) ++ commaRev (i + 1) cs

/-- `format_with_commas`: split off a leading minus sign, then group the rest
in threes from the right (the source's `starts_with('-')` test followed by the
reversed-iteration loop). -/
def format_with_commas (cs : List Char) : List Char :=
  if cs.headD ' ' = '-' then '-' :: (commaRev 0 cs.tail.reverse).reverse
  else (commaRev 0 cs.reverse).reverse

/-- `format_number`: render at a fixed decimal count (rounding first), split
on the decimal point, comma-group the integer part, reattach the fraction. -/
def format_number (value : ℚ) (decimals : Nat) : String :=
  let formatted := plainFixed value decimals
  let parts := splitChars '.' formatted
  let int_part := format_with_commas (parts.headD [])
  match parts with
  | _ :: p2 :: _ => ⟨int_part ++ '.' :: p2⟩
  | _ => ⟨int_part⟩

/-- `format_large_number`: round to an integer, then format with no decimals. -/
def format_large_number (value : ℚ) : String :=
  format_number (roundRust value) 0

/-- Stable insertion of `a` into `l` under the Boolean relation `le`. -/
def insertSorted (le : α → α → Bool) (a : α) : List α → List α
  | [] => [a]
  | b :: bs => if le a b then a :: b :: bs else b :: insertSorted le a bs

/-- Model of Rust's (stable) `sort_by`: insertion sort under `le`.  For the
total orders used by the reports any sorted permutation is determined up to
ties, and no claim depends on tie order. -/
def sortByRel (le : α → α → Bool) : List α → List α
  | [] => []
  | a :: as => insertSorted le a (sortByRel le as)

/-- `calculate_median` of a float list: 0 when empty, else the middle of the
ascending sort (mean of the two middles for even lengths). -/
def calculate_median (values : List ℚ) : ℚ :=
  if values = [] then 0
  else
    let sorted := sortByRel (fun a b => decide (a ≤ b)) values
    let mid := sorted.length / 2
    if sorted.length % 2 = 0 then (sorted.getD (mid - 1) 0 + sorted.getD mid 0) / 2
    else sorted.getD mid 0

/-- `calculate_average` of a float list (0 when empty). -/
def calculate_average (values : List ℚ) : ℚ :=
  if values = [] then 0 else values.sum / values.length

/-- `calculate_average_i64`: integer sum cast to float, divided by length
(0 when empty). -/
def calculate_average_i64 (values : List Int) : ℚ :=
  if values = [] then 0 else (values.sum : ℚ) / values.length

/-- `calculate_percentage` with its division-by-zero guard. -/
def calculate_percentage (part total : ℚ) : ℚ :=
  if total = 0 then 0 else part / total * 100

/-- Rust `f64::clamp lo hi`. -/
def rustClamp (x lo hi : ℚ) : ℚ :=
  min (max x lo) hi

/-- First occurrences of a key list, in order, without later duplicates. -/
def firstKeys [DecidableEq κ] : List κ → List κ
  | [] => []
  | k :: ks => k :: (firstKeys ks).filter (fun x => ¬ x = k)

/-- Deterministic model of the `HashMap`-based grouping loops: one group per
distinct key, keys in first-occurrence order, each group holding its records
in input order.  Rust's `HashMap` iterates groups in an unspecified order;
every claim below is order-independent, quantifying over group membership. -/
def groupByKey [DecidableEq κ] (f : α → κ) (l : List α) : List (κ × List α) :=
  (firstKeys (l.map f)).map (fun k => (k, l.filter (fun a => f a = k)))

/-- One report row, modelled as the insertion sequence of `(key, value)`
cells: the Rust code aliases `ReportRow = HashMap<String, String>` and each
generator performs a fixed sequence of `insert` calls; this list records those
insertions in order, which is the observable content the claims speak about. -/
abbrev ReportRow : Type := List (String × String)

/-- Per-region working values (struct `Report1Temp`). -/
structure Report1Temp where
  region : String
  main_island : String
  total_budget : ℚ
  median_savings : ℚ
  avg_delay : ℚ
  high_delay_pct : ℚ
  efficiency_score : ℚ
  deriving DecidableEq

/-- The per-group body of `generate_report1`'s aggregation loop. -/
def mkReport1Temp (region : String) (recs : List ProcessedRecord) : Report1Temp :=
  let main_island := match recs with | [] => "" | r0 :: _ => r0.main_island
  let total_budget := (recs.map (fun r => r.approved_budget_for_contract)).sum
  let savings := recs.map (fun r => r.cost_savings)
  let median_savings := calculate_median savings
  let delays := recs.filterMap (fun r => r.completion_delay_days)
  let avg_delay := calculate_average_i64 delays
  let high_delay_pct :=
    if ¬ delays = [] then
      calculate_percentage ((delays.filter (fun d => 30 < d)).length : ℚ) (delays.length : ℚ)
    else 0
  let efficiency_score :=
    if 0 < avg_delay then rustClamp (median_savings / avg_delay * 100) 0 100 else 0
  ⟨region, main_island, total_budget, median_savings, avg_delay, high_delay_pct,
    efficiency_score⟩

/-- The per-region statistics of `generate_report1` (empty groups are skipped
exactly as the `continue` in the source does; grouping never produces one). -/
def report1Temps (records : List ProcessedRecord) : List Report1Temp :=
  (groupByKey (fun r => r.region) records).filterMap fun kg =>
    if kg.2 = [] then none else some (mkReport1Temp kg.1 kg.2)

/-- The formatted row emitted for one region. -/
def report1Row (r : Report1Temp) : ReportRow :=
  [("Region", r.region),
   ("MainIsland", r.main_island),
   ("TotalBudget", format_large_number r.total_budget),
   ("MedianSavings", format_number r.median_savings 2),
   ("AvgDelay", format_number r.avg_delay 2),
   ("HighDelayPct", format_number r.high_delay_pct 2),
   ("EfficiencyScore", format_number r.efficiency_score 2)]

/-- `generate_report1`: group by region, aggregate, sort by descending
efficiency score, render. -/
def generate_report1 (records : List ProcessedRecord) : List ReportRow :=
  (sortByRel (fun a b => decide (b.efficiency_score ≤ a.efficiency_score))
      (report1Temps records)).map report1Row

/-- Per-contractor working values (struct `Report2Temp`). -/
structure Report2Temp where
  contractor : String
  total_cost : ℚ
  num_projects : Nat
  avg_delay : ℚ
  total_savings : ℚ
  reliability_index : ℚ
  risk_flag : String
  deriving DecidableEq

/-- The per-group body of `generate_report2`'s aggregation loop. -/
def mkReport2Temp (contractor : String) (recs : List ProcessedRecord) : Report2Temp :=
  let total_cost := (recs.map (fun r => r.contract_cost)).sum
  let total_savings := (recs.map (fun r => r.cost_savings)).sum
  let delays := recs.filterMap (fun r => r.completion_delay_days)
  let avg_delay := calculate_average_i64 delays
  let reliability_index :=
    if 0 < total_cost then
      rustClamp (max (1 - avg_delay / 90) 0 * (total_savings / total_cost) * 100) 0 100
    else 0
  let risk_flag := if reliability_index < 50 then "High Risk" else "Low Risk"
  ⟨contractor, total_cost, recs.length, avg_delay, total_savings, reliability_index,
    risk_flag⟩

/-- The surviving per-contractor statistics of `generate_report2` (groups with
fewer than 5 projects are discarded). -/
def report2Temps (records : List ProcessedRecord) : List Report2Temp :=
  (groupByKey (fun r => r.contractor) records).filterMap fun kg =>
    if kg.2.length < 5 then none else some (mkReport2Temp kg.1 kg.2)

/-- The formatted row emitted for one ranked contractor. -/
def report2Row (i : Nat) (r : Report2Temp) : ReportRow :=
  [("Rank", ⟨natToChars (i + 1)⟩),
   ("Contractor", r.contractor),
   ("TotalCost", format_large_number r.total_cost),
   ("NumProjects", ⟨natToChars r.num_projects⟩),
   ("AvgDelay", format_number r.avg_delay 2),
   ("TotalSavings", format_large_number r.total_savings),
   ("ReliabilityIndex", format_number r.reliability_index 2),
   ("RiskFlag", r.risk_flag)]

/-- `generate_report2`: group by contractor, drop small groups, sort by
descending total cost, keep the top 15, assign 1-based ranks, render. -/
def generate_report2 (records : List ProcessedRecord) : List ReportRow :=
  (((sortByRel (fun a b => decide (b.total_cost ≤ a.total_cost))
      (report2Temps records)).take 15).enum).map fun it => report2Row it.1 it.2

/-- Per-(year, type) working values (struct `Report3Temp`). -/
structure Report3Temp where
  funding_year : Int
  type_of_work : String
  total_projects : Nat
  avg_savings : ℚ
  overrun_rate : ℚ
  yoy_change : ℚ
  deriving DecidableEq

/-- The composite grouping key of `generate_report3`:
`format!("{}|{}", funding_year, type_of_work)`. -/
def report3Key (r : ProcessedRecord) : List Char :=
  intToChars r.funding_year ++ '|' :: r.type_of_work.data

/-- The funding year `generate_report3` reads back from a key
(`parts[0].parse::<i32>().unwrap()`; the unwrap never fires because the key
starts with a formatted `i32`, so the model's default is immaterial). -/
def keyYear (key : List Char) : Int :=
  ((parseIntChars ((splitChars '|' key).headD [])).getD 0)

/-- The work type `generate_report3` reads back from a key (`parts[1]`): the
text strictly between the first and second `'|'` of the key — NOT necessarily
the original `type_of_work`, which is truncated if it itself contains `'|'`. -/
def keyType (key : List Char) : String :=
  ⟨(splitChars '|' key).getD 1 []⟩

/-- The groups of `generate_report3`. -/
def report3Groups (records : List ProcessedRecord) :
    List (List Char × List ProcessedRecord) :=
  groupByKey report3Key records

/-- The `year_type_data` lookup of `generate_report3`, flattened: the Rust
code builds `HashMap<type, HashMap<year, avg>>` by inserting once per group
(later inserts overwrite), then reads `get(type)` / `get(year)`.  The chained
lookup equals the value inserted by the last group (in iteration order) whose
reconstructed type and year match, which is what `getLast?` of the matches
returns. -/
def ytLookup (gs : List (List Char × List ProcessedRecord)) (ty : String) (y : Int) :
    Option ℚ :=
  (gs.filterMap fun kg =>
    if keyType kg.1 = ty ∧ keyYear kg.1 = y then
      some (calculate_average (kg.2.map (fun r => r.cost_savings)))
    else none).getLast?

/-- The full row `generate_report3` computes for one group: per-group metrics
from the first loop, then the year-over-year patch of the second loop. -/
def mkReport3Temp (gs : List (List Char × List ProcessedRecord))
    (kg : List Char × List ProcessedRecord) : Report3Temp :=
  let year := keyYear kg.1
  let ty := keyType kg.1
  let savings := kg.2.map (fun r => r.cost_savings)
  let avg_savings := calculate_average savings
  let overrun_rate :=
    if ¬ savings = [] then
      calculate_percentage ((savings.filter (fun s => s < 0)).length : ℚ) (savings.length : ℚ)
    else 0
  let yoy_change :=
    match ytLookup gs ty 2021 with
    | some baseline =>
      if ¬ year = 2021 ∧ ¬ baseline = 0 then (avg_savings - baseline) / |baseline| * 100
      else 0
    | none => 0
  ⟨year, ty, kg.2.length, avg_savings, overrun_rate, yoy_change⟩

/-- The per-group statistics of `generate_report3`, year-over-year included. -/
def report3Temps (records : List ProcessedRecord) : List Report3Temp :=
  (report3Groups records).map (mkReport3Temp (report3Groups records))

/-- The formatted row emitted for one (year, type) group. -/
def report3Row (r : Report3Temp) : ReportRow :=
  [("FundingYear", ⟨intToChars r.funding_year⟩),
   ("TypeOfWork", r.type_of_work),
   ("TotalProjects", ⟨natToChars r.total_projects⟩),
   ("AvgSavings", format_number r.avg_savings 2),
   ("OverrunRate", format_number r.overrun_rate 2),
   ("YoYChange", format_number r.yoy_change 2)]

/-- `generate_report3`: group by the composite key, aggregate, patch in YoY
changes, sort by ascending year then descending average savings, render. -/
def generate_report3 (records : List ProcessedRecord) : List ReportRow :=
  (sortByRel
      (fun a b =>
        if ¬ a.funding_year = b.funding_year then decide (a.funding_year < b.funding_year)
        else decide (b.avg_savings ≤ a.avg_savings))
      (report3Temps records)).map report3Row

/-- The error line recorded by `load_file` for an invalid row at 0-based
input index `i` (CSV line `i + 2`). -/
def rowMsg (i : Nat) (v : ValidationResult) : String :=
  "Row " ++ ⟨natToChars (i + 2)⟩ ++ ": " ++ String.intercalate ", " v.errors

/-- The validate-and-clean loop of `load_file`, started at row index `i`:
rows that clean successfully go to the first component; rows that fail are
re-validated and contribute an error message ONLY when validation itself
failed. -/
def loadLoop (i : Nat) : List RawRecord → List CleanedRecord × List String
  | [] => ([], [])
  | r :: rs =>
    let rest := loadLoop (i + 1) rs
    match clean_record r with
    | some c => (c :: rest.1, rest.2)
    | none =>
      let v := validate_record r
      if v.is_valid then rest else (rest.1, rowMsg i v :: rest.2)

/-- The cleaned records and collected error messages of `load_file`. -/
def loadErrorsAndCleaned (raws : List RawRecord) : List CleanedRecord × List String :=
  loadLoop 0 raws

/-- The processed dataset `load_file` stores: clean, derive, impute, filter
to the fixed 2021–2023 window. -/
def loadProcessed (raws : List RawRecord) : List ProcessedRecord :=
  filter_by_year_range
    (impute_coordinates (((loadErrorsAndCleaned raws).1).map add_derived_fields)) 2021 2023

/-! ### Spec-side definitions

These are written from the specification's wording, independently of the
source loops, to be compared with the embedded code. -/

/-- Spec-side reading of "avg_delay (mean of present completion delays)":
the arithmetic mean, elementwise cast to the rationals, 0 when no delay is
present. -/
def specAvgDelay (recs : List ProcessedRecord) : ℚ :=
  let delays := recs.filterMap (fun r => r.completion_delay_days)
  if delays = [] then 0 else (delays.map (fun (d : Int) => (d : ℚ))).sum / delays.length

/-- Spec-side reading of "that type's 2021 group's avg_savings as baseline
(absent if no 2021 group exists for that type)": the average cost savings of
the records with funding year 2021 and exactly the given work type. -/
def specBaseline (records : List ProcessedRecord) (ty : String) : Option ℚ :=
  let g2021 := records.filter (fun r => r.funding_year = 2021 ∧ r.type_of_work = ty)
  if g2021 = [] then none
  else some (calculate_average (g2021.map (fun r => r.cost_savings)))

/-- Report 1 header order, as passed to `write_report`. -/
def report1Headers : List String :=
  ["Region", "MainIsland", "TotalBudget", "MedianSavings", "AvgDelay", "HighDelayPct",
   "EfficiencyScore"]

/-- Report 2 header order, as passed to `write_report`. -/
def report2Headers : List String :=
  ["Rank", "Contractor", "TotalCost", "NumProjects", "AvgDelay", "TotalSavings",
   "ReliabilityIndex", "RiskFlag"]

/-- Report 3 header order, as passed to `write_report`. -/
def report3Headers : List String :=
  ["FundingYear", "TypeOfWork", "TotalProjects", "AvgSavings", "OverrunRate", "YoYChange"]

/-! ### Concrete fixtures used by counterexamples and witnesses -/

/-- A raw row that passes validation (budget is non-blank) but whose budget
text `"abc"` fails numeric parsing. -/
def c1BadRow : RawRecord :=
  ⟨"R", "I", "2021", "abc", "5", "", "", "", "", "P", "C", "X"⟩

/-- One processed record in region `"A"` with savings 4 and delay 2. -/
def c2Rec : ProcessedRecord :=
  ⟨"A", "I", 2021, 0, 0, none, none, none, none, "P", "C", "X", 4, some 2⟩

/-- A one-record dataset for the Report 1 witness. -/
def c2Recs : List ProcessedRecord := [c2Rec]

/-- A processed record with negative contract cost `-2` (parseable from the
raw text `"-2"`, which validation accepts) and savings `-2`. -/
def c4Rec : ProcessedRecord :=
  ⟨"R", "I", 2021, -4, -2, none, none, none, none, "P", "C", "X", -2, none⟩

/-- Five copies of `c4Rec`: one contractor group of size 5 whose total
contract cost is `-10`. -/
def c4Recs : List ProcessedRecord := [c4Rec, c4Rec, c4Rec, c4Rec, c4Rec]

/-- A benign record (cost 2, savings 1) for the Report 2 witness. -/
def c4GoodRec : ProcessedRecord :=
  ⟨"R", "I", 2021, 3, 2, none, none, none, none, "P", "C", "X", 1, none⟩

/-- Five copies of `c4GoodRec`. -/
def c4GoodRecs : List ProcessedRecord := [c4GoodRec, c4GoodRec, c4GoodRec, c4GoodRec, c4GoodRec]

/-- A 2021 record of work type `"X"` with savings 100. -/
def c5R1 : ProcessedRecord :=
  ⟨"R", "I", 2021, 0, 0, none, none, none, none, "P", "C", "X", 100, none⟩

/-- A 2022 record whose work type `"X|Y"` contains the key separator. -/
def c5R2 : ProcessedRecord :=
  ⟨"R", "I", 2022, 0, 0, none, none, none, none, "P", "C", "X|Y", 400, none⟩

/-- The dataset exhibiting the `'|'` key-truncation divergence of Report 3. -/
def c5Recs : List ProcessedRecord := [c5R1, c5R2]

/-- A 2022 record of work type `"X"` with savings 50 (for the witness). -/
def c5W2 : ProcessedRecord :=
  ⟨"R", "I", 2022, 0, 0, none, none, none, none, "P", "C", "X", 50, none⟩

/-- A pipe-free two-group dataset for the Report 3 witness. -/
def c5WRecs : List ProcessedRecord := [c5R1, c5W2]

/-- Bohol record with known latitude 10. -/
def c6R1 : ProcessedRecord :=
  ⟨"R", "I", 2021, 0, 0, none, none, some 10, none, "Bohol", "C", "X", 0, none⟩

/-- Bohol record with known latitude 12. -/
def c6R2 : ProcessedRecord :=
  ⟨"R", "I", 2021, 0, 0, none, none, some 12, none, "Bohol", "C", "X", 0, none⟩

/-- Bohol record with missing latitude. -/
def c6R3 : ProcessedRecord :=
  ⟨"R", "I", 2021, 0, 0, none, none, none, none, "Bohol", "C", "X", 0, none⟩

/-- The imputation example dataset: Bohol has latitudes 10 and 12 known and
one record missing. -/
def c6Recs : List ProcessedRecord := [c6R1, c6R2, c6R3]

/-- A raw row whose funding year text is `"2020"` (parses, out of range). -/
def c8Row : RawRecord :=
  ⟨"R", "I", "2020", "5", "4", "", "", "", "", "P", "C", "X"⟩

/-! ### Lemmas: decimal rendering and parsing -/

theorem natToCharsAux_eq (fuel n : Nat) (h : n ≤ fuel) :
    natToCharsAux fuel n = ((Nat.digits 10 n).map Nat.digitChar).reverse := by
  induction fuel generalizing n with
  | zero =>
    interval_cases n
    simp [natToCharsAux]
  | succ fuel ih =>
    by_cases hn : n = 0
    · subst hn; simp [natToCharsAux]
    · have hlt : n / 10 ≤ fuel := by
        have := Nat.div_lt_self (Nat.pos_of_ne_zero hn) (by norm_num : 1 < 10)
        omega
      rw [natToCharsAux, if_neg hn, ih (n / 10) hlt,
        Nat.digits_def' (by norm_num : 1 < 10) (Nat.pos_of_ne_zero hn)]
      simp

theorem natToChars_eq (n : Nat) :
    natToChars n = if n = 0 then ['0'] else ((Nat.digits 10 n).map Nat.digitChar).reverse := by
  unfold natToChars
  split
  · rfl
  · exact natToCharsAux_eq n n le_rfl

theorem digitChar_isDigit {d : Nat} (h : d < 10) : (Nat.digitChar d).isDigit = true := by
  interval_cases d <;> decide

theorem digitChar_toNat {d : Nat} (h : d < 10) : (Nat.digitChar d).toNat = 48 + d := by
  interval_cases d <;> decide

theorem isDigit_ne {c : Char} (h : c.isDigit = true) :
    ¬ c = ',' ∧ ¬ c = '.' ∧ ¬ c = '-' ∧ ¬ c = '+' ∧ ¬ c = '|' := by
  refine ⟨?_, ?_, ?_, ?_, ?_⟩ <;> · intro he; subst he; exact absurd h (by decide)

theorem natToChars_all_isDigit (n : Nat) : ∀ c ∈ natToChars n, c.isDigit = true := by
  intro c hc
  rw [natToChars_eq] at hc
  split at hc
  · rcases List.mem_singleton.mp hc with rfl; decide
  · rcases List.mem_map.mp (List.mem_reverse.mp hc) with ⟨d, hd, rfl⟩
    exact digitChar_isDigit (Nat.digits_lt_base (by norm_num) hd)

theorem natToChars_ne_nil (n : Nat) : ¬ natToChars n = [] := by
  rw [natToChars_eq]
  split
  · simp
  · simp [Nat.digits_ne_nil_iff_ne_zero, *]

theorem foldr_digitChar_eq_ofDigits (L : List Nat) (h : ∀ d ∈ L, d < 10) :
    L.foldr (fun d a => a * 10 + ((Nat.digitChar d).toNat - 48)) 0 = Nat.ofDigits 10 L := by
  induction L with
  | nil => simp [Nat.ofDigits]
  | cons d L ih =>
    rw [List.foldr_cons, ih (fun x hx => h x (List.mem_cons_of_mem _ hx)),
      Nat.ofDigits_cons, digitChar_toNat (h d (List.mem_cons_self _ _))]
    omega

theorem charsToNat_natToChars (n : Nat) : charsToNat (natToChars n) = n := by
  rw [natToChars_eq]
  split
  · simp only [*]; decide
  · unfold charsToNat
    rw [List.foldl_reverse, List.foldr_map,
      foldr_digitChar_eq_ofDigits _ (fun d hd => Nat.digits_lt_base (by norm_num) hd),
      Nat.ofDigits_digits]

theorem parseIntChars_intToChars (y : Int) : parseIntChars (intToChars y) = some y := by
  unfold intToChars
  by_cases hy : y < 0
  · rw [if_pos hy]
    have hall : List.all (natToChars y.natAbs) Char.isDigit = true :=
      List.all_eq_true.mpr (natToChars_all_isDigit _)
    have hne : ¬ natToChars y.natAbs = [] := natToChars_ne_nil _
    have habs : (y.natAbs : Int) = -y := by omega
    simp [parseIntChars, hall, hne, charsToNat_natToChars, habs]
  · rw [if_neg hy]
    cases hsplit : natToChars y.natAbs with
    | nil => exact absurd hsplit (natToChars_ne_nil _)
    | cons c cs =>
      have hc : c.isDigit = true := by
        apply natToChars_all_isDigit y.natAbs
        rw [hsplit]; exact List.mem_cons_self _ _
      have hall : List.all (c :: cs) Char.isDigit = true := by
        rw [← hsplit]; exact List.all_eq_true.mpr (natToChars_all_isDigit _)
      simp only [parseIntChars, if_neg (isDigit_ne hc).2.2.1, if_neg (isDigit_ne hc).2.2.2.1,
        hall, if_pos]
      rw [← hsplit, charsToNat_natToChars]
      have : (y.natAbs : Int) = y := by omega
      simp [this]

theorem mem_intToChars {y : Int} {c : Char} (h : c ∈ intToChars y) :
    c = '-' ∨ c.isDigit = true := by
  unfold intToChars at h
  split at h
  · rcases List.mem_cons.mp h with rfl | h2
    · exact Or.inl rfl
    · exact Or.inr (natToChars_all_isDigit _ c h2)
  · exact Or.inr (natToChars_all_isDigit _ c h)

/-! ### Lemmas: splitting, taking, grouping, sorting -/

theorem splitChars_no_sep {sep : Char} {ys : List Char} (h : sep ∉ ys) :
    splitChars sep ys = [ys] := by
  induction ys with
  | nil => rfl
  | cons c cs ih =>
    have hc : ¬ c = sep := fun he => h (he ▸ List.mem_cons_self _ _)
    rw [splitChars, if_neg hc, ih (fun hm => h (List.mem_cons_of_mem _ hm))]

theorem splitChars_append {sep : Char} {xs ys : List Char} (h : sep ∉ xs) :
    splitChars sep (xs ++ sep :: ys) = xs :: splitChars sep ys := by
  induction xs with
  | nil => simp [splitChars]
  | cons c cs ih =>
    have hc : ¬ c = sep := fun he => h (he ▸ List.mem_cons_self _ _)
    rw [List.cons_append, splitChars, if_neg hc, ih (fun hm => h (List.mem_cons_of_mem _ hm))]

theorem takeWhile_append_of_all {p : Char → Bool} {l r : List Char} {x : Char}
    (hl : ∀ c ∈ l, p c = true) (hx : ¬ p x = true) :
    (l ++ x :: r).takeWhile p = l ∧ (l ++ x :: r).dropWhile p = x :: r := by
  induction l with
  | nil => simp [List.takeWhile, List.dropWhile, hx]
  | cons c cs ih =>
    have hc : p c = true := hl c (List.mem_cons_self _ _)
    have := ih (fun a ha => hl a (List.mem_cons_of_mem _ ha))
    simp [List.takeWhile, List.dropWhile, hc, this.1, this.2]

theorem takeWhile_of_all {p : Char → Bool} {l : List Char} (hl : ∀ c ∈ l, p c = true) :
    l.takeWhile p = l ∧ l.dropWhile p = [] := by
  induction l with
  | nil => simp
  | cons c cs ih =>
    have hc : p c = true := hl c (List.mem_cons_self _ _)
    have := ih (fun a ha => hl a (List.mem_cons_of_mem _ ha))
    simp [List.takeWhile, List.dropWhile, hc, this.1, this.2]

theorem mem_firstKeys [DecidableEq κ] {k : κ} {m : List κ} :
    k ∈ firstKeys m ↔ k ∈ m := by
  induction m with
  | nil => simp [firstKeys]
  | cons a as ih =>
    by_cases hk : k = a
    · subst hk; simp [firstKeys]
    · simp only [firstKeys, List.mem_cons, List.mem_filter]
      constructor
      · rintro (rfl | ⟨h1, _⟩)
        · exact Or.inl rfl
        · exact Or.inr (ih.mp h1)
      · rintro (rfl | h1)
        · exact Or.inl rfl
        · exact Or.inr ⟨ih.mpr h1, by simpa using hk⟩

theorem nodup_firstKeys [DecidableEq κ] (m : List κ) : (firstKeys m).Nodup := by
  induction m with
  | nil => simp [firstKeys]
  | cons a as ih =>
    rw [firstKeys, List.nodup_cons]
    refine ⟨?_, ih.filter _⟩
    intro hmem
    have h2 := (List.mem_filter.mp hmem).2
    simp at h2

theorem mem_groupByKey [DecidableEq κ] {f : α → κ} {l : List α} {k : κ} {g : List α} :
    (k, g) ∈ groupByKey f l ↔ (k ∈ l.map f ∧ g = l.filter (fun a => f a = k)) := by
  unfold groupByKey
  rw [List.mem_map]
  constructor
  · rintro ⟨k2, hk2, he⟩
    obtain rfl : k2 = k := congrArg Prod.fst he
    exact ⟨mem_firstKeys.mp hk2, (congrArg Prod.snd he).symm⟩
  · rintro ⟨hk, rfl⟩
    exact ⟨k, mem_firstKeys.mpr hk, rfl⟩

theorem map_fst_pair {β : Type v} (h : κ → β) (l : List κ) :
    (l.map (fun k => (k, h k))).map Prod.fst = l := by
  induction l with
  | nil => rfl
  | cons a as ih => simp only [List.map_cons, ih]

theorem groupByKey_keys [DecidableEq κ] (f : α → κ) (l : List α) :
    (groupByKey f l).map Prod.fst = firstKeys (l.map f) := by
  unfold groupByKey
  exact map_fst_pair _ _

theorem mem_of_mem_group [DecidableEq κ] {f : α → κ} {l : List α} {k : κ} {g : List α}
    (h : (k, g) ∈ groupByKey f l) {a : α} (ha : a ∈ g) : a ∈ l ∧ f a = k := by
  rcases (mem_groupByKey.mp h).2 ▸ ha with hmem
  have := List.mem_filter.mp hmem
  exact ⟨this.1, by simpa using this.2⟩

theorem group_ne_nil [DecidableEq κ] {f : α → κ} {l : List α} {k : κ} {g : List α}
    (h : (k, g) ∈ groupByKey f l) : ¬ g = [] := by
  rcases mem_groupByKey.mp h with ⟨hk, rfl⟩
  rcases List.mem_map.mp hk with ⟨a, ha, rfl⟩
  intro hnil
  have : a ∈ List.filter (fun x => decide (f x = f a)) l :=
    List.mem_filter.mpr ⟨ha, by simp⟩
  rw [hnil] at this
  exact absurd this (List.not_mem_nil a)

theorem filterMap_single_match {β : Type} [DecidableEq κ] {gs : List (κ × List α)} {k : κ}
    {g : List α} (hnd : (gs.map Prod.fst).Nodup) (hmem : (k, g) ∈ gs) (F : κ × List α → β) :
    (gs.filterMap fun kg => if kg.1 = k then some (F kg) else none) = [F (k, g)] := by
  induction gs with
  | nil => exact absurd hmem (List.not_mem_nil _)
  | cons kg0 rest ih =>
    rw [List.map_cons, List.nodup_cons] at hnd
    rcases List.mem_cons.mp hmem with rfl | hmem2
    · rw [List.filterMap_cons, if_pos rfl]
      have : (rest.filterMap fun kg => if kg.1 = k then some (F kg) else none) = [] := by
        rw [List.filterMap_eq_nil_iff]
        intro kg hkg
        have hne : ¬ kg.1 = k := by
          intro he
          have hmm : kg.1 ∈ rest.map Prod.fst := List.mem_map_of_mem Prod.fst hkg
          rw [he] at hmm
          exact hnd.1 hmm
        rw [if_neg hne]
      rw [this]
    · rw [List.filterMap_cons]
      have hne : ¬ kg0.1 = k := by
        intro he
        apply hnd.1
        rw [he]
        exact List.mem_map_of_mem Prod.fst hmem2
      rw [if_neg hne, ih hnd.2 hmem2]

theorem mem_insertSorted {le : α → α → Bool} {a x : α} {l : List α} :
    x ∈ insertSorted le a l ↔ x = a ∨ x ∈ l := by
  induction l with
  | nil => simp [insertSorted]
  | cons b bs ih =>
    unfold insertSorted
    split
    · simp
    · rw [List.mem_cons, List.mem_cons, ih]
      tauto

theorem mem_sortByRel {le : α → α → Bool} {x : α} {l : List α} :
    x ∈ sortByRel le l ↔ x ∈ l := by
  induction l with
  | nil => simp [sortByRel]
  | cons b bs ih =>
    rw [sortByRel, mem_insertSorted, List.mem_cons, ih]

/-! ### Lemmas: fixed-decimal rendering and comma grouping -/

theorem foldl_charsToNat_replicate_zero (z : Nat) (a : Nat) :
    (List.replicate z '0').foldl (fun a c => a * 10 + (c.toNat - 48)) (a * 10 ^ z * 0 + 0) =
      a * 10 ^ z * 0 + 0 := by
  induction z with
  | zero => rfl
  | succ z ih =>
    rw [List.replicate_succ, List.foldl_cons]
    simpa using ih

theorem charsToNat_replicate_zero_append (z : Nat) (l : List Char) :
    charsToNat (List.replicate z '0' ++ l) = charsToNat l := by
  unfold charsToNat
  rw [List.foldl_append]
  have h0 : (List.replicate z '0').foldl (fun a c => a * 10 + (c.toNat - 48)) 0 = 0 := by
    induction z with
    | zero => rfl
    | succ z ih => rw [List.replicate_succ, List.foldl_cons]; simpa using ih
  rw [h0]

theorem charsToNat_padZeros (m w : Nat) : charsToNat (padZeros m w) = m := by
  unfold padZeros
  rw [charsToNat_replicate_zero_append, charsToNat_natToChars]

theorem padZeros_all_isDigit (m w : Nat) : ∀ c ∈ padZeros m w, c.isDigit = true := by
  intro c hc
  rcases List.mem_append.mp hc with h1 | h2
  · rcases List.eq_of_mem_replicate h1 with rfl; decide
  · exact natToChars_all_isDigit m c h2

theorem natToChars_length_le {m w : Nat} (hm : m < 10 ^ w) (hw : ¬ w = 0) :
    (natToChars m).length ≤ w := by
  rw [natToChars_eq]
  split
  · simpa using Nat.pos_of_ne_zero hw
  · rw [List.length_reverse, List.length_map,
      Nat.digits_len 10 m (by norm_num) (by assumption)]
    have := (Nat.lt_pow_iff_log_lt (by norm_num : 1 < 10) (by assumption)).mp hm
    omega

theorem padZeros_length {m w : Nat} (hm : m < 10 ^ w) (hw : ¬ w = 0) :
    (padZeros m w).length = w := by
  unfold padZeros
  rw [List.length_append, List.length_replicate]
  have := natToChars_length_le hm hw
  omega

theorem plainFixed_no_comma (q : ℚ) (d : Nat) : ∀ c ∈ plainFixed q d, ¬ c = ',' := by
  intro c hc
  unfold plainFixed at hc
  have hsign : ∀ x ∈ (if roundRust (q * 10 ^ d) < 0 then ['-'] else ([] : List Char)),
      ¬ x = ',' := by
    intro x hx
    split at hx
    · rcases List.mem_singleton.mp hx with rfl; decide
    · exact absurd hx (List.not_mem_nil x)
  split at hc
  · rcases List.mem_append.mp hc with h1 | h2
    · exact hsign c h1
    · exact (isDigit_ne (natToChars_all_isDigit _ c h2)).1
  · rcases List.mem_append.mp hc with h12 | h3
    · rcases List.mem_append.mp h12 with h1 | h2
      · exact hsign c h1
      · exact (isDigit_ne (natToChars_all_isDigit _ c h2)).1
    · rcases List.mem_cons.mp h3 with rfl | h5
      · decide
      · exact (isDigit_ne (padZeros_all_isDigit _ _ c h5)).1

theorem filter_commaRev (i : Nat) (l : List Char) (h : ∀ c ∈ l, ¬ c = ',') :
    (commaRev i l).filter (fun c => ¬ c = ',') = l := by
  induction l generalizing i with
  | nil => rfl
  | cons c cs ih =>
    have hc : ¬ c = ',' := h c (List.mem_cons_self _ _)
    have hrest := ih (i + 1) (fun x hx => h x (List.mem_cons_of_mem _ hx))
    rw [commaRev, List.filter_append, hrest]
    split
    · simp [hc]
    · simp [hc]

theorem filter_format_with_commas (cs : List Char) (h : ∀ c ∈ cs, ¬ c = ',') :
    (format_with_commas cs).filter (fun c => ¬ c = ',') = cs := by
  unfold format_with_commas
  have hbody : ∀ l : List Char, (∀ x ∈ l, ¬ x = ',') →
      ((commaRev 0 l.reverse).reverse.filter (fun c => ¬ c = ',')) = l := by
    intro l hl
    have hall : ∀ x ∈ l.reverse, ¬ x = ',' := fun x hx => hl x (List.mem_reverse.mp hx)
    rw [List.filter_reverse, filter_commaRev 0 l.reverse hall, List.reverse_reverse]
  split
  · cases cs with
    | nil => simp_all
    | cons c t =>
      have ht : ∀ x ∈ t, ¬ x = ',' := fun x hx => h x (List.mem_cons_of_mem _ hx)
      have hc : c = '-' := by simpa using (by assumption : (c :: t).headD ' ' = '-')
      subst hc
      simpa [List.filter_cons] using hbody t ht
  · exact hbody cs h

theorem parseDecCore_digits (sign : ℚ) (l : List Char) (hne : ¬ l = [])
    (hall : ∀ c ∈ l, c.isDigit = true) :
    parseDecCore sign l = some (sign * (charsToNat l : ℚ)) := by
  have htake := takeWhile_of_all (p := Char.isDigit) hall
  unfold parseDecCore
  rw [htake.1, htake.2]
  simp [hne]

theorem parseDecCore_digits_dot (sign : ℚ) (l f2 : List Char) (hne : ¬ l = [])
    (hall : ∀ c ∈ l, c.isDigit = true) (hf : ∀ c ∈ f2, c.isDigit = true) :
    parseDecCore sign (l ++ '.' :: f2) =
      some (sign * ((charsToNat l : ℚ) + (charsToNat f2 : ℚ) / 10 ^ f2.length)) := by
  have htake := takeWhile_append_of_all (p := Char.isDigit) (x := '.') (r := f2) hall (by decide)
  unfold parseDecCore
  rw [htake.1, htake.2]
  simp [List.all_eq_true.mpr hf, hne]

theorem parseDecChars_cons_digit {c : Char} {cs : List Char} (hc : c.isDigit = true) :
    parseDecChars (c :: cs) = parseDecCore 1 (c :: cs) := by
  rw [parseDecChars]
  rw [if_neg (isDigit_ne hc).2.2.1, if_neg (isDigit_ne hc).2.2.2.1]

theorem parseDecChars_cons_neg (cs : List Char) :
    parseDecChars ('-' :: cs) = parseDecCore (-1) cs := by
  rw [parseDecChars, if_pos rfl]

theorem div_mod_cast_key (a : Nat) (d : Nat) :
    ((a / 10 ^ d : ℕ) : ℚ) + ((a % 10 ^ d : ℕ) : ℚ) / 10 ^ d = (a : ℚ) / 10 ^ d := by
  have h10 : ((10 : ℚ) ^ d) ≠ 0 := by positivity
  rw [eq_div_iff h10, add_mul, div_mul_cancel₀ _ h10, mul_comm]
  exact_mod_cast Nat.div_add_mod a (10 ^ d)

theorem parseDecChars_plainFixed (q : ℚ) (d : Nat) :
    parseDecChars (plainFixed q d) = some ((roundRust (q * 10 ^ d) : ℚ) / 10 ^ d) := by
  unfold plainFixed
  generalize roundRust (q * 10 ^ d) = n
  by_cases hd : d = 0
  · subst hd
    rw [if_pos rfl]
    by_cases hneg : n < 0
    · rw [if_pos hneg]
      show parseDecChars ('-' :: natToChars n.natAbs) = _
      rw [parseDecChars_cons_neg,
        parseDecCore_digits _ _ (natToChars_ne_nil _) (natToChars_all_isDigit _),
        charsToNat_natToChars]
      have habs : ((n.natAbs : ℚ)) = -(n : ℚ) := by
        rw [Int.cast_natAbs, abs_of_neg hneg]
        push_cast
        ring
      rw [habs]
      congr 1
      ring
    · rw [if_neg hneg]
      cases hsplit : natToChars n.natAbs with
      | nil => exact absurd hsplit (natToChars_ne_nil _)
      | cons c cs =>
        have hc : c.isDigit = true := by
          apply natToChars_all_isDigit n.natAbs
          rw [hsplit]
          exact List.mem_cons_self _ _
        show parseDecChars (c :: cs) = _
        rw [parseDecChars_cons_digit hc, ← hsplit,
          parseDecCore_digits _ _ (natToChars_ne_nil _) (natToChars_all_isDigit _),
          charsToNat_natToChars]
        have habs : ((n.natAbs : ℚ)) = (n : ℚ) := by
          rw [Int.cast_natAbs, abs_of_nonneg (le_of_not_lt hneg)]
        rw [habs]
        congr 1
        ring
  · rw [if_neg hd]
    have hmlt : n.natAbs % 10 ^ d < 10 ^ d := Nat.mod_lt _ (by positivity)
    have hlen : (padZeros (n.natAbs % 10 ^ d) d).length = d := padZeros_length hmlt hd
    by_cases hneg : n < 0
    · rw [if_pos hneg]
      show parseDecChars ('-' :: (natToChars (n.natAbs / 10 ^ d) ++
        '.' :: padZeros (n.natAbs % 10 ^ d) d)) = _
      rw [parseDecChars_cons_neg,
        parseDecCore_digits_dot _ _ _ (natToChars_ne_nil _) (natToChars_all_isDigit _)
          (padZeros_all_isDigit _ _),
        charsToNat_natToChars, charsToNat_padZeros, hlen, div_mod_cast_key]
      have habs : ((n.natAbs : ℚ)) = -(n : ℚ) := by
        rw [Int.cast_natAbs, abs_of_neg hneg]
        push_cast
        ring
      rw [habs]
      congr 1
      ring
    · rw [if_neg hneg]
      cases hsplit : natToChars (n.natAbs / 10 ^ d) with
      | nil => exact absurd hsplit (natToChars_ne_nil _)
      | cons c cs =>
        have hc : c.isDigit = true := by
          apply natToChars_all_isDigit (n.natAbs / 10 ^ d)
          rw [hsplit]
          exact List.mem_cons_self _ _
        show parseDecChars ((c :: cs) ++ '.' :: padZeros (n.natAbs % 10 ^ d) d) = _
        rw [show ((c :: cs) ++ '.' :: padZeros (n.natAbs % 10 ^ d) d) =
          c :: (cs ++ '.' :: padZeros (n.natAbs % 10 ^ d) d) from rfl]
        rw [parseDecChars_cons_digit hc]
        rw [show c :: (cs ++ '.' :: padZeros (n.natAbs % 10 ^ d) d) =
          (c :: cs) ++ '.' :: padZeros (n.natAbs % 10 ^ d) d from rfl, ← hsplit]
        rw [parseDecCore_digits_dot _ _ _ (natToChars_ne_nil _) (natToChars_all_isDigit _)
            (padZeros_all_isDigit _ _),
          charsToNat_natToChars, charsToNat_padZeros, hlen, div_mod_cast_key]
        have habs : ((n.natAbs : ℚ)) = (n : ℚ) := by
          rw [Int.cast_natAbs, abs_of_nonneg (le_of_not_lt hneg)]
        rw [habs]
        congr 1
        ring

theorem format_number_filter (q : ℚ) (d : Nat) :
    (format_number q d).data.filter (fun c => ¬ c = ',') = plainFixed q d := by
  have hnc := plainFixed_no_comma q d
  by_cases hd : d = 0
  · subst hd
    have hnodot : ('.' : Char) ∉ plainFixed q 0 := by
      intro hmem
      unfold plainFixed at hmem
      rw [if_pos rfl] at hmem
      rcases List.mem_append.mp hmem with h1 | h2
      · revert h1
        split <;> intro h1
        · exact absurd (List.mem_singleton.mp h1) (by decide)
        · exact absurd h1 (List.not_mem_nil _)
      · exact absurd (natToChars_all_isDigit _ _ h2) (by decide)
    simp only [format_number]
    rw [splitChars_no_sep hnodot]
    exact filter_format_with_commas _ hnc
  · have hpf : plainFixed q d =
        ((if roundRust (q * 10 ^ d) < 0 then ['-'] else []) ++
          natToChars ((roundRust (q * 10 ^ d)).natAbs / 10 ^ d)) ++
          '.' :: padZeros ((roundRust (q * 10 ^ d)).natAbs % 10 ^ d) d := by
      unfold plainFixed
      rw [if_neg hd]
    have hno1 : ('.' : Char) ∉ ((if roundRust (q * 10 ^ d) < 0 then ['-'] else []) ++
        natToChars ((roundRust (q * 10 ^ d)).natAbs / 10 ^ d)) := by
      intro hmem
      rcases List.mem_append.mp hmem with h1 | h2
      · revert h1
        split <;> intro h1
        · exact absurd (List.mem_singleton.mp h1) (by decide)
        · exact absurd h1 (List.not_mem_nil _)
      · exact absurd (natToChars_all_isDigit _ _ h2) (by decide)
    have hno2 : ('.' : Char) ∉ padZeros ((roundRust (q * 10 ^ d)).natAbs % 10 ^ d) d := by
      intro hmem
      exact absurd (padZeros_all_isDigit _ _ _ hmem) (by decide)
    have hall1 : ∀ c ∈ ((if roundRust (q * 10 ^ d) < 0 then ['-'] else []) ++
        natToChars ((roundRust (q * 10 ^ d)).natAbs / 10 ^ d)), ¬ c = ',' := by
      intro c hc
      apply hnc
      rw [hpf]
      exact List.mem_append_left _ hc
    have hall2 : ∀ c ∈ padZeros ((roundRust (q * 10 ^ d)).natAbs % 10 ^ d) d, ¬ c = ',' := by
      intro c hc
      exact (isDigit_ne (padZeros_all_isDigit _ _ c hc)).1
    simp only [format_number]
    rw [hpf, splitChars_append hno1, splitChars_no_sep hno2]
    show ((format_with_commas ((if roundRust (q * 10 ^ d) < 0 then ['-'] else []) ++
      natToChars ((roundRust (q * 10 ^ d)).natAbs / 10 ^ d))) ++
      '.' :: padZeros ((roundRust (q * 10 ^ d)).natAbs % 10 ^ d) d).filter
        (fun c => ¬ c = ',') = _
    rw [List.filter_append, filter_format_with_commas _ hall1, List.filter_cons]
    have hpad : (padZeros ((roundRust (q * 10 ^ d)).natAbs % 10 ^ d) d).filter
        (fun c => ¬ c = ',') = padZeros ((roundRust (q * 10 ^ d)).natAbs % 10 ^ d) d := by
      rw [List.filter_eq_self]
      intro a ha
      simpa using hall2 a ha
    rw [hpad]
    norm_num
    decide

/-! ### Lemmas: validation, cleaning and the load loop -/

theorem validate_errors_of_valid {r : RawRecord}
    (h : (validate_record r).is_valid = true) : (validate_record r).errors = [] :=
  List.isEmpty_iff.mp h

theorem validate_year_ok {r : RawRecord} (h : (validate_record r).is_valid = true) :
    ∃ y, parseIntChars r.funding_year.data = some y ∧ is_valid_year y := by
  have herr := validate_errors_of_valid h
  simp only [validate_record] at herr
  rcases List.append_eq_nil.mp herr with ⟨h1234, _⟩
  rcases List.append_eq_nil.mp h1234 with ⟨h123, _⟩
  rcases List.append_eq_nil.mp h123 with ⟨_, h3⟩
  cases hyr : parseIntChars r.funding_year.data with
  | none =>
    rw [hyr] at h3
    simp at h3
  | some y =>
    rw [hyr] at h3
    refine ⟨y, rfl, ?_⟩
    by_contra hbad
    simp [hbad] at h3

theorem clean_record_some_valid {r : RawRecord} {c : CleanedRecord}
    (h : clean_record r = some c) : (validate_record r).is_valid = true := by
  unfold clean_record at h
  by_cases hv : (validate_record r).is_valid
  · exact hv
  · rw [if_pos (by simpa using hv)] at h
    cases h

theorem clean_record_parses {r : RawRecord} {c : CleanedRecord}
    (h : clean_record r = some c) :
    parseIntChars r.funding_year.data = some c.funding_year := by
  have hv := clean_record_some_valid h
  unfold clean_record at h
  rw [if_neg (by simp [hv])] at h
  rcases Option.bind_eq_some.mp h with ⟨ab, hab, h2⟩
  rcases Option.bind_eq_some.mp h2 with ⟨cc, hcc, h3⟩
  rcases Option.bind_eq_some.mp h3 with ⟨fy, hfy, h4⟩
  rcases Option.some.injEq .. ▸ h4 with rfl
  exact hfy

theorem clean_record_year {r : RawRecord} {c : CleanedRecord}
    (h : clean_record r = some c) : 2021 ≤ c.funding_year ∧ c.funding_year ≤ 2023 := by
  obtain ⟨y, hy, hvy⟩ := validate_year_ok (clean_record_some_valid h)
  have hp := clean_record_parses h
  rw [hy] at hp
  rcases Option.some.injEq .. ▸ hp with rfl
  exact hvy

theorem clean_record_none_of_parse_fail {r : RawRecord}
    (h : validate_number r.approved_budget_for_contract = none ∨
      validate_number r.contract_cost = none) :
    clean_record r = none := by
  unfold clean_record
  split
  · rfl
  · rcases h with h1 | h2
    · rw [h1]
      rfl
    · rw [h2]
      cases validate_number r.approved_budget_for_contract <;> rfl

theorem loadLoop_fst (i : Nat) (raws : List RawRecord) :
    (loadLoop i raws).1 = raws.filterMap clean_record := by
  induction raws generalizing i with
  | nil => rfl
  | cons r rs ih =>
    rw [loadLoop, List.filterMap_cons]
    cases hcr : clean_record r with
    | some c => simpa [hcr] using ih (i + 1)
    | none =>
      simp only [hcr]
      split <;> exact ih (i + 1)

theorem loadLoop_snd_length (i : Nat) (raws : List RawRecord) :
    (loadLoop i raws).2.length =
      (raws.filter (fun r => ¬ (validate_record r).is_valid)).length := by
  induction raws generalizing i with
  | nil => rfl
  | cons r rs ih =>
    rw [loadLoop, List.filter_cons]
    cases hcr : clean_record r with
    | some c =>
      have hv := clean_record_some_valid hcr
      simp only [hcr]
      rw [if_neg (by simp [hv])]
      exact ih (i + 1)
    | none =>
      simp only [hcr]
      by_cases hv : (validate_record r).is_valid
      · rw [if_pos hv, if_neg (by simp [hv])]
        exact ih (i + 1)
      · rw [if_neg hv, if_pos (by simpa using hv)]
        simpa using ih (i + 1)

theorem imputeOne_funding_year (all : List ProcessedRecord) (r : ProcessedRecord) :
    (imputeOne all r).funding_year = r.funding_year := by
  unfold imputeOne
  split
  · cases provinceAvg all r.province with
    | none => rfl
    | some p => cases p; rfl
  · rfl

theorem add_derived_funding_year (c : CleanedRecord) :
    (add_derived_fields c).funding_year = c.funding_year := rfl

theorem calculate_average_i64_eq_spec (l : List Int) :
    calculate_average_i64 l =
      (if l = [] then 0 else (l.map (fun (d : Int) => (d : ℚ))).sum / l.length) := by
  unfold calculate_average_i64
  split
  · rfl
  · congr 1
    push_cast
    rfl

/-! ### Lemmas: the composite key of Report 3 -/

theorem pipe_not_mem_intToChars (y : Int) : ('|' : Char) ∉ intToChars y := by
  intro hmem
  rcases mem_intToChars hmem with h | h
  · exact absurd h (by decide)
  · exact absurd h (by decide)

theorem keyYear_recon (y : Int) (t : String) (ht : ('|' : Char) ∉ t.data) :
    keyYear (intToChars y ++ '|' :: t.data) = y := by
  unfold keyYear
  rw [splitChars_append (pipe_not_mem_intToChars y), splitChars_no_sep ht]
  simp [parseIntChars_intToChars]

theorem keyType_recon (y : Int) (t : String) (ht : ('|' : Char) ∉ t.data) :
    keyType (intToChars y ++ '|' :: t.data) = t := by
  unfold keyType
  rw [splitChars_append (pipe_not_mem_intToChars y), splitChars_no_sep ht]
  rfl

theorem report3Key_eq_iff (r : ProcessedRecord) (Y : Int) (T : String)
    (hr : ('|' : Char) ∉ r.type_of_work.data) (hT : ('|' : Char) ∉ T.data) :
    report3Key r = intToChars Y ++ '|' :: T.data ↔
      (r.funding_year = Y ∧ r.type_of_work = T) := by
  constructor
  · intro he
    have h1 := keyYear_recon r.funding_year r.type_of_work hr
    have h2 := keyType_recon r.funding_year r.type_of_work hr
    unfold report3Key at he
    rw [he, keyYear_recon Y T hT] at h1
    rw [he, keyType_recon Y T hT] at h2
    exact ⟨h1.symm, h2.symm⟩
  · rintro ⟨h1, h2⟩
    unfold report3Key
    rw [h1, h2]

theorem group_key_from_record {records : List ProcessedRecord}
    {kg : List Char × List ProcessedRecord} (h : kg ∈ report3Groups records) :
    ∃ a ∈ records, report3Key a = kg.1 := by
  have hk : kg.1 ∈ (report3Groups records).map Prod.fst := List.mem_map_of_mem Prod.fst h
  rw [report3Groups, groupByKey_keys] at hk
  rcases List.mem_map.mp (mem_firstKeys.mp hk) with ⟨a, ha, he⟩
  exact ⟨a, ha, he⟩

theorem ytLookup_eq_specBaseline (records : List ProcessedRecord)
    (hp : ∀ r ∈ records, ('|' : Char) ∉ r.type_of_work.data)
    (T : String) (hT : ('|' : Char) ∉ T.data) :
    ytLookup (report3Groups records) T 2021 = specBaseline records T := by
  have hcondiff : ∀ kg ∈ report3Groups records,
      ((keyType kg.1 = T ∧ keyYear kg.1 = 2021) ↔
        kg.1 = intToChars 2021 ++ '|' :: T.data) := by
    intro kg hkg
    obtain ⟨a, ha, hae⟩ := group_key_from_record hkg
    constructor
    · rintro ⟨ht, hy⟩
      rw [← hae] at ht hy ⊢
      unfold report3Key at ht hy
      rw [keyType_recon _ _ (hp a ha)] at ht
      rw [keyYear_recon _ _ (hp a ha)] at hy
      unfold report3Key
      rw [← ht, ← hy]
    · intro he
      rw [he, keyType_recon _ _ hT, keyYear_recon _ _ hT]
      exact ⟨rfl, rfl⟩
  have hcongr : (List.filterMap
      (fun kg => if keyType kg.1 = T ∧ keyYear kg.1 = 2021 then
        some (calculate_average (kg.2.map (fun r => r.cost_savings))) else none)
      (report3Groups records)) =
      (List.filterMap
        (fun kg => if kg.1 = intToChars 2021 ++ '|' :: T.data then
          some (calculate_average (kg.2.map (fun r => r.cost_savings))) else none)
        (report3Groups records)) := by
    apply List.filterMap_congr
    intro kg hkg
    by_cases hcond : keyType kg.1 = T ∧ keyYear kg.1 = 2021
    · rw [if_pos hcond, if_pos ((hcondiff kg hkg).mp hcond)]
    · rw [if_neg hcond, if_neg (fun he => hcond ((hcondiff kg hkg).mpr he))]
  unfold ytLookup
  rw [hcongr]
  have hfiltiff : ∀ x ∈ records,
      (decide (report3Key x = intToChars 2021 ++ '|' :: T.data)) =
        (decide (x.funding_year = 2021 ∧ x.type_of_work = T)) := by
    intro x hx
    exact decide_eq_decide.mpr (report3Key_eq_iff x 2021 T (hp x hx) hT)
  by_cases hex : ∃ a ∈ records, a.funding_year = 2021 ∧ a.type_of_work = T
  · obtain ⟨a, ha, hay, hat⟩ := hex
    have hkey : report3Key a = intToChars 2021 ++ '|' :: T.data :=
      (report3Key_eq_iff a 2021 T (hp a ha) hT).mpr ⟨hay, hat⟩
    have hmem : (intToChars 2021 ++ '|' :: T.data,
        records.filter (fun x => report3Key x = intToChars 2021 ++ '|' :: T.data)) ∈
          report3Groups records := by
      rw [report3Groups]
      exact mem_groupByKey.mpr ⟨hkey ▸ List.mem_map_of_mem report3Key ha, rfl⟩
    have hnd : ((report3Groups records).map Prod.fst).Nodup := by
      rw [report3Groups, groupByKey_keys]
      exact nodup_firstKeys _
    rw [filterMap_single_match hnd hmem
      (fun kg => calculate_average (kg.2.map (fun r => r.cost_savings)))]
    have hfilt : records.filter
        (fun x => report3Key x = intToChars 2021 ++ '|' :: T.data) =
        records.filter (fun x => x.funding_year = 2021 ∧ x.type_of_work = T) :=
      List.filter_congr hfiltiff
    have hne : ¬ records.filter
        (fun x => x.funding_year = 2021 ∧ x.type_of_work = T) = [] := by
      intro hnil
      have : a ∈ records.filter (fun x => x.funding_year = 2021 ∧ x.type_of_work = T) :=
        List.mem_filter.mpr ⟨ha, by simp [hay, hat]⟩
      rw [hnil] at this
      exact absurd this (List.not_mem_nil a)
    unfold specBaseline
    rw [if_neg hne, List.getLast?_singleton, hfilt]
  · have hnone : (List.filterMap
        (fun kg => if kg.1 = intToChars 2021 ++ '|' :: T.data then
          some (calculate_average (kg.2.map (fun r => r.cost_savings))) else none)
        (report3Groups records)) = [] := by
      rw [List.filterMap_eq_nil_iff]
      intro kg hkg
      rw [if_neg]
      intro he
      obtain ⟨a, ha, hae⟩ := group_key_from_record hkg
      rw [he] at hae
      exact hex ⟨a, ha, (report3Key_eq_iff a 2021 T (hp a ha) hT).mp hae⟩
    rw [hnone]
    have hnil : records.filter (fun x => x.funding_year = 2021 ∧ x.type_of_work = T) = [] := by
      rw [List.filter_eq_nil_iff]
      intro a ha hpa
      exact hex ⟨a, ha, by simpa using hpa⟩
    unfold specBaseline
    rw [if_pos hnil]
    rfl

/-! ### Claims -/

/-- Claim C1, as frozen, is REFUTED by this input: the row passes validation
(`is_valid = true`) and its required budget field fails to parse, so
`clean_record` drops it — yet `load_file`'s loop collects NO error message for
it (the `else` branch only records messages when re-validation fails), so the
error list is empty instead of containing the row.  The claim demands the row
be "counted among (and reported with) the collected error messages". -/
theorem c1_counterexample :
    (validate_record c1BadRow).is_valid = true ∧
    validate_number c1BadRow.approved_budget_for_contract = none ∧
    loadErrorsAndCleaned [c1BadRow] = ([], []) := by
  decide

/-- Claim C1 (amended): a raw row that passes validation but whose
ApprovedBudgetForContract or ContractCost fails to parse after cleaning is
excluded from the cleaned set, but it is NOT counted among the collected
error messages: the error list's length counts exactly the rows that fail
validation itself. -/
theorem c1_load_drops_unparsed_uncounted (raws : List RawRecord) :
    (loadErrorsAndCleaned raws).1 = raws.filterMap clean_record ∧
    (loadErrorsAndCleaned raws).2.length =
      (raws.filter (fun r => ¬ (validate_record r).is_valid)).length ∧
    ∀ r ∈ raws, (validate_record r).is_valid = true →
      (validate_number r.approved_budget_for_contract = none ∨
        validate_number r.contract_cost = none) →
      clean_record r = none :=
  ⟨loadLoop_fst 0 raws, loadLoop_snd_length 0 raws,
    fun _ _ _ h => clean_record_none_of_parse_fail h⟩

/-- Witness for the amended claim C1 at the concrete bad row. -/
theorem c1_witness :
    c1BadRow ∈ [c1BadRow] ∧ (validate_record c1BadRow).is_valid = true ∧
    (validate_number c1BadRow.approved_budget_for_contract = none ∨
      validate_number c1BadRow.contract_cost = none) ∧
    clean_record c1BadRow = none :=
  ⟨by decide, by decide, Or.inl (by decide),
    (c1_load_drops_unparsed_uncounted [c1BadRow]).2.2 c1BadRow (by decide) (by decide)
      (Or.inl (by decide))⟩

/-- Claim C7: the Cleaner's numeric parsing strips thousands separators and
surrounding whitespace before parsing as a float, maps blank input or the
literal `"N/A"` to absence (never zero), with `clean("1,234.50") = 1234.50`,
`clean("N/A")` and `clean("")` absent; and if a required field
(approved_budget or contract_cost) fails to parse, `clean_record` yields no
`CleanedRecord` at all. -/
theorem c7_cleaner_numeric_parsing :
    validate_number "1,234.50" = some (1234.5 : ℚ) ∧
    validate_number "N/A" = none ∧
    validate_number "" = none ∧
    (∀ s : String, trimChars s.data = [] → validate_number s = none) ∧
    ∀ r : RawRecord,
      (validate_number r.approved_budget_for_contract = none ∨
        validate_number r.contract_cost = none) →
      clean_record r = none := by
  refine ⟨?_, by decide, by decide, ?_, ?_⟩
  · unfold validate_number
    rw [if_neg (by decide)]
    rw [show trimChars (("1,234.50" : String).data.filter (fun c => ¬ c = ',')) =
      '1' :: ("234".data ++ '.' :: "50".data) from by decide]
    rw [parseDecChars_cons_digit (by decide)]
    rw [show ('1' :: ("234".data ++ '.' :: "50".data)) =
      ("1234".data ++ '.' :: "50".data) from by decide]
    rw [parseDecCore_digits_dot 1 _ _ (by decide) (by decide) (by decide)]
    have h1 : charsToNat ("1234".data) = 1234 := by decide
    have h2 : charsToNat ("50".data) = 50 := by decide
    have h3 : ("50".data).length = 2 := by decide
    rw [h1, h2, h3]
    norm_num
  · intro s hs
    unfold validate_number
    rw [if_pos (Or.inl hs)]
  · exact fun _ h => clean_record_none_of_parse_fail h

/-- Witness for claim C7's quantified parts at concrete inputs. -/
theorem c7_witness :
    (trimChars ("  " : String).data = [] ∧ validate_number "  " = none) ∧
    ((validate_number c1BadRow.approved_budget_for_contract = none ∨
        validate_number c1BadRow.contract_cost = none) ∧
      clean_record c1BadRow = none) :=
  ⟨⟨by decide, c7_cleaner_numeric_parsing.2.2.2.1 "  " (by decide)⟩,
    ⟨Or.inl (by decide),
      c7_cleaner_numeric_parsing.2.2.2.2 c1BadRow (Or.inl (by decide))⟩⟩

/-- Claim C8: for every raw row whose FundingYear text does not parse as an
integer or parses outside [2021, 2023], the Validator reports at least one
error including `"Invalid FundingYear: <raw text>"`, and no `CleanedRecord` is
constructed from the row. -/
theorem c8_invalid_funding_year (r : RawRecord)
    (h : parseIntChars r.funding_year.data = none ∨
      ∃ y, parseIntChars r.funding_year.data = some y ∧ (y < 2021 ∨ 2023 < y)) :
    ("Invalid FundingYear: " ++ r.funding_year) ∈ (validate_record r).errors ∧
    ¬ (validate_record r).errors = [] ∧
    clean_record r = none := by
  have hcond : ((parseIntChars r.funding_year.data).isNone = true ∨
      (match parseIntChars r.funding_year.data with
        | none => false
        | some y => decide (is_valid_year y)) = false) := by
    rcases h with h1 | ⟨y, hy, hout⟩
    · left
      rw [h1]
      rfl
    · right
      rw [hy]
      simp only [decide_eq_false_iff_not]
      unfold is_valid_year
      omega
  have hmem : ("Invalid FundingYear: " ++ r.funding_year) ∈ (validate_record r).errors := by
    simp only [validate_record]
    refine List.mem_append.mpr (Or.inl (List.mem_append.mpr (Or.inl
      (List.mem_append.mpr (Or.inr ?_)))))
    rw [if_pos hcond]
    exact List.mem_singleton.mpr rfl
  have hnil : ¬ (validate_record r).errors = [] := by
    intro hn
    rw [hn] at hmem
    exact absurd hmem (List.not_mem_nil _)
  refine ⟨hmem, hnil, ?_⟩
  have hval : ¬ (validate_record r).is_valid = true := by
    intro hv
    exact hnil (validate_errors_of_valid hv)
  unfold clean_record
  rw [if_pos (by simpa using hval)]

/-- Witness for claim C8 at a row with FundingYear text `"2020"`. -/
theorem c8_witness :
    ("Invalid FundingYear: " ++ c8Row.funding_year) ∈ (validate_record c8Row).errors ∧
    ¬ (validate_record c8Row).errors = [] ∧
    clean_record c8Row = none :=
  c8_invalid_funding_year c8Row (Or.inr ⟨2020, by decide, Or.inl (by decide)⟩)

/-- Claim C10: the Year Filter stage is the identity on the pipeline's actual
data — every record surviving clean/derive/impute has funding_year in
[2021, 2023] (validation guarantees it), so `filter_by_year_range _ 2021 2023`
returns the list unchanged. -/
theorem c10_year_filter_identity (raws : List RawRecord) :
    filter_by_year_range
      (impute_coordinates (((loadErrorsAndCleaned raws).1).map add_derived_fields)) 2021 2023 =
      impute_coordinates (((loadErrorsAndCleaned raws).1).map add_derived_fields) := by
  unfold filter_by_year_range
  apply List.filter_eq_self.mpr
  intro r hr
  unfold impute_coordinates at hr
  rcases List.mem_map.mp hr with ⟨r0, hr0, rfl⟩
  rcases List.mem_map.mp hr0 with ⟨c, hc, rfl⟩
  have hcmem : c ∈ raws.filterMap clean_record := by
    rw [← loadLoop_fst 0]
    exact hc
  obtain ⟨raw, _, hraw⟩ := List.mem_filterMap.mp hcmem
  have hy := clean_record_year hraw
  have hfy : (imputeOne ((loadErrorsAndCleaned raws).1.map add_derived_fields)
      (add_derived_fields c)).funding_year = c.funding_year := by
    rw [imputeOne_funding_year, add_derived_funding_year]
  simp only [hfy, decide_eq_true_eq]
  exact hy

theorem map_const_eq_replicate {β : Type v} (b : β) (l : List α) :
    l.map (fun _ => b) = List.replicate l.length b := by
  induction l with
  | nil => rfl
  | cons a as ih => simp [List.replicate_succ, ih]

/-- Claim C2: in Report 1, every region group's efficiency_score equals
`clamp(median_savings / avg_delay * 100, 0, 100)` when the group's avg_delay
(the mean of its present completion delays) is strictly positive, and 0
otherwise; the group's temp row is among the produced ones. -/
theorem c2_efficiency_score (records : List ProcessedRecord) (k : String)
    (g : List ProcessedRecord) (h : (k, g) ∈ groupByKey (fun r => r.region) records) :
    mkReport1Temp k g ∈ report1Temps records ∧
    (mkReport1Temp k g).efficiency_score =
      (if 0 < specAvgDelay g then
        min (max (calculate_median (g.map (fun r => r.cost_savings)) / specAvgDelay g * 100) 0)
          100
      else 0) := by
  constructor
  · unfold report1Temps
    refine List.mem_filterMap.mpr ⟨(k, g), h, ?_⟩
    rw [if_neg (group_ne_nil h)]
  · have havg : specAvgDelay g =
        calculate_average_i64 (g.filterMap (fun r => r.completion_delay_days)) := by
      rw [calculate_average_i64_eq_spec]
      rfl
    rw [havg]
    rfl

/-- Witness for claim C2 at a one-record region group with delay 2. -/
theorem c2_witness :
    ("A", [c2Rec]) ∈ groupByKey (fun r => r.region) c2Recs ∧
    (mkReport1Temp "A" [c2Rec] ∈ report1Temps c2Recs ∧
      (mkReport1Temp "A" [c2Rec]).efficiency_score =
        (if 0 < specAvgDelay [c2Rec] then
          min (max (calculate_median ([c2Rec].map (fun r => r.cost_savings)) /
            specAvgDelay [c2Rec] * 100) 0) 100
        else 0)) :=
  ⟨by decide, c2_efficiency_score c2Recs "A" [c2Rec] (by decide)⟩

/-- Claim C3: every row produced by the three report generators carries its
cells in the report's declared header order — the insertion sequence of keys
is exactly that report's header list (`ReportRow` models the ordered
insertion sequence performed on the Rust `HashMap`). -/
theorem c3_row_keys_follow_headers (records : List ProcessedRecord) :
    ((generate_report1 records).map (fun row => row.map Prod.fst) =
      List.replicate (generate_report1 records).length report1Headers) ∧
    ((generate_report2 records).map (fun row => row.map Prod.fst) =
      List.replicate (generate_report2 records).length report2Headers) ∧
    ((generate_report3 records).map (fun row => row.map Prod.fst) =
      List.replicate (generate_report3 records).length report3Headers) := by
  refine ⟨?_, ?_, ?_⟩
  · unfold generate_report1
    rw [List.map_map, List.length_map]
    exact map_const_eq_replicate report1Headers _
  · unfold generate_report2
    rw [List.map_map, List.length_map]
    exact map_const_eq_replicate report2Headers _
  · unfold generate_report3
    rw [List.map_map, List.length_map]
    exact map_const_eq_replicate report3Headers _

/-- Claim C4, as frozen, is REFUTED by this contractor group of five records
with total contract cost `-10` (each record has contract cost `-2`, which
validation and cleaning accept): total_cost is nonzero, so the claim's
formula applies and evaluates to 100, but the code's `total_cost > 0` guard
yields reliability_index 0 (and hence the opposite risk flag). -/
theorem c4_counterexample :
    ("C", c4Recs) ∈ groupByKey (fun r => r.contractor) c4Recs ∧
    ¬ c4Recs.length < 5 ∧
    ¬ (mkReport2Temp "C" c4Recs).total_cost = 0 ∧
    (mkReport2Temp "C" c4Recs).reliability_index = 0 ∧
    min (max (max (1 - (mkReport2Temp "C" c4Recs).avg_delay / 90) 0 *
      ((mkReport2Temp "C" c4Recs).total_savings / (mkReport2Temp "C" c4Recs).total_cost) * 100)
      0) 100 = 100 := by
  refine ⟨by decide, by decide, ?_, ?_, ?_⟩ <;>
    norm_num [mkReport2Temp, c4Recs, c4Rec, calculate_average_i64, rustClamp]

/-- Claim C4 (amended): reliability_index equals
`clamp(max(1 − avg_delay/90, 0) × (total_savings/total_cost) × 100, 0, 100)`
when total_cost is strictly POSITIVE, and is 0 whenever total_cost ≤ 0 (the
code guards on `total_cost > 0.0`, not merely on zero); risk_flag is
`"High Risk"` exactly when reliability_index < 50. -/
theorem c4_reliability (records : List ProcessedRecord) (k : String)
    (g : List ProcessedRecord) (h : (k, g) ∈ groupByKey (fun r => r.contractor) records)
    (h5 : ¬ g.length < 5) :
    mkReport2Temp k g ∈ report2Temps records ∧
    (mkReport2Temp k g).reliability_index =
      (if 0 < (g.map (fun r => r.contract_cost)).sum then
        min (max (max (1 - calculate_average_i64
              (g.filterMap (fun r => r.completion_delay_days)) / 90) 0 *
          ((g.map (fun r => r.cost_savings)).sum / (g.map (fun r => r.contract_cost)).sum) *
          100) 0) 100
      else 0) ∧
    ((mkReport2Temp k g).risk_flag = "High Risk" ↔
      (mkReport2Temp k g).reliability_index < 50) := by
  refine ⟨?_, rfl, ?_⟩
  · unfold report2Temps
    exact List.mem_filterMap.mpr ⟨(k, g), h, by rw [if_neg h5]⟩
  · have hflag : (mkReport2Temp k g).risk_flag =
        (if (mkReport2Temp k g).reliability_index < 50 then "High Risk" else "Low Risk") := rfl
    rw [hflag]
    by_cases hri : (mkReport2Temp k g).reliability_index < 50
    · rw [if_pos hri]
      exact iff_of_true rfl hri
    · rw [if_neg hri]
      constructor
      · intro hlow
        exact absurd hlow (by decide)
      · intro hcon
        exact absurd hcon hri

/-- Witness for the amended claim C4 at a positive-cost contractor group. -/
theorem c4_witness :
    (("C", c4GoodRecs) ∈ groupByKey (fun r => r.contractor) c4GoodRecs ∧
      ¬ c4GoodRecs.length < 5) ∧
    (mkReport2Temp "C" c4GoodRecs ∈ report2Temps c4GoodRecs ∧
      (mkReport2Temp "C" c4GoodRecs).reliability_index =
        (if 0 < (c4GoodRecs.map (fun r => r.contract_cost)).sum then
          min (max (max (1 - calculate_average_i64
                (c4GoodRecs.filterMap (fun r => r.completion_delay_days)) / 90) 0 *
            ((c4GoodRecs.map (fun r => r.cost_savings)).sum /
              (c4GoodRecs.map (fun r => r.contract_cost)).sum) * 100) 0) 100
        else 0) ∧
      ((mkReport2Temp "C" c4GoodRecs).risk_flag = "High Risk" ↔
        (mkReport2Temp "C" c4GoodRecs).reliability_index < 50)) :=
  ⟨⟨by decide, by decide⟩,
    c4_reliability c4GoodRecs "C" c4GoodRecs (by decide) (by decide)⟩

theorem provinceAvg_eq_some {records : List ProcessedRecord} {r : ProcessedRecord}
    (hr : r ∈ records) (hp : ¬ r.province = "") :
    provinceAvg records r.province =
      some (avgOpt (provinceLatsOf records r.province),
        avgOpt (provinceLngsOf records r.province)) := by
  unfold provinceAvg
  rw [if_neg]
  push_neg
  refine ⟨hp, ?_⟩
  intro hnil
  have : r ∈ records.filter (fun x => x.province = r.province) :=
    List.mem_filter.mpr ⟨hr, by simp⟩
  rw [hnil] at this
  exact absurd this (List.not_mem_nil r)

/-- Claim C6: after the Imputer pass (a per-record map over the dataset), a
record missing a coordinate on an axis whose nonblank province has at least
one known value on that axis receives the arithmetic mean of that province's
known values on that axis, independently per axis; if the province has no
known value on an axis the coordinate is left unchanged (in particular stays
absent); and a record with blank province is never changed at all. -/
theorem c6_imputer (records : List ProcessedRecord) :
    impute_coordinates records = records.map (imputeOne records) ∧
    ∀ r ∈ records,
      ((¬ r.province = "" ∧ r.project_latitude = none ∧
          ¬ provinceLatsOf records r.province = []) →
        (imputeOne records r).project_latitude =
          some ((provinceLatsOf records r.province).sum /
            (provinceLatsOf records r.province).length)) ∧
      ((¬ r.province = "" ∧ r.project_longitude = none ∧
          ¬ provinceLngsOf records r.province = []) →
        (imputeOne records r).project_longitude =
          some ((provinceLngsOf records r.province).sum /
            (provinceLngsOf records r.province).length)) ∧
      (provinceLatsOf records r.province = [] →
        (imputeOne records r).project_latitude = r.project_latitude) ∧
      (provinceLngsOf records r.province = [] →
        (imputeOne records r).project_longitude = r.project_longitude) ∧
      (r.province = "" → imputeOne records r = r) := by
  refine ⟨rfl, ?_⟩
  intro r hr
  refine ⟨?_, ?_, ?_, ?_, ?_⟩
  · rintro ⟨hp, hlat, hlats⟩
    unfold imputeOne
    rw [if_pos (Or.inl hlat), provinceAvg_eq_some hr hp]
    show (if r.project_latitude = none then avgOpt (provinceLatsOf records r.province)
      else r.project_latitude) = _
    rw [if_pos hlat]
    unfold avgOpt
    rw [if_neg hlats]
  · rintro ⟨hp, hlng, hlngs⟩
    unfold imputeOne
    rw [if_pos (Or.inr hlng), provinceAvg_eq_some hr hp]
    show (if r.project_longitude = none then avgOpt (provinceLngsOf records r.province)
      else r.project_longitude) = _
    rw [if_pos hlng]
    unfold avgOpt
    rw [if_neg hlngs]
  · intro hlats
    unfold imputeOne
    split
    · by_cases hp : r.province = ""
      · rw [show provinceAvg records r.province = none from by
          unfold provinceAvg; rw [if_pos (Or.inl hp)]]
      · rw [provinceAvg_eq_some hr hp]
        show (if r.project_latitude = none then avgOpt (provinceLatsOf records r.province)
          else r.project_latitude) = r.project_latitude
        by_cases hlat : r.project_latitude = none
        · rw [if_pos hlat, hlat]
          unfold avgOpt
          rw [if_pos hlats]
        · rw [if_neg hlat]
    · rfl
  · intro hlngs
    unfold imputeOne
    split
    · by_cases hp : r.province = ""
      · rw [show provinceAvg records r.province = none from by
          unfold provinceAvg; rw [if_pos (Or.inl hp)]]
      · rw [provinceAvg_eq_some hr hp]
        show (if r.project_longitude = none then avgOpt (provinceLngsOf records r.province)
          else r.project_longitude) = r.project_longitude
        by_cases hlng : r.project_longitude = none
        · rw [if_pos hlng, hlng]
          unfold avgOpt
          rw [if_pos hlngs]
        · rw [if_neg hlng]
    · rfl
  · intro hp
    unfold imputeOne
    split
    · rw [show provinceAvg records r.province = none from by
        unfold provinceAvg; rw [if_pos (Or.inl hp)]]
    · rfl

/-- Witness for claim C6: the Bohol dataset with known latitudes 10 and 12
imputes 11 into the record missing its latitude. -/
theorem c6_witness :
    c6R3 ∈ c6Recs ∧ (imputeOne c6Recs c6R3).project_latitude = some 11 := by
  refine ⟨by decide, ?_⟩
  have h := ((c6_imputer c6Recs).2 c6R3 (by decide)).1 ⟨by decide, by decide, by decide⟩
  rw [h]
  norm_num [provinceLatsOf, c6Recs, c6R1, c6R2, c6R3, List.filterMap_cons]

/-- Claim C9: number formatting renders the value rounded half-up (ties away
from zero, Rust's `f64::round`) at the configured decimal count, then groups
the integer part with commas every 3 digits from the right, preserving the
sign and leaving the fraction untouched: dropping the inserted commas
recovers exactly the plain fixed-decimal digit string, and that digit string
parses back to `round(value·10^d)/10^d` — the concrete examples evaluate as
the claim states.  Formatting is a pure function of the value, so the stored
numeric value is never altered. -/
theorem c9_format_number :
    format_number (1234567.5 : ℚ) 2 = "1,234,567.50" ∧
    format_number (1234567.5 : ℚ) 0 = "1,234,568" ∧
    ∀ (q : ℚ) (d : Nat),
      ((format_number q d).data.filter (fun c => ¬ c = ',')) = plainFixed q d ∧
      parseDecChars (plainFixed q d) =
        some ((roundRust (q * 10 ^ d) : ℚ) / 10 ^ d) := by
  refine ⟨?_, ?_, fun q d => ⟨format_number_filter q d, parseDecChars_plainFixed q d⟩⟩
  · have h1 : roundRust ((1234567.5 : ℚ) * 10 ^ 2) = 123456750 := by
      unfold roundRust
      rw [if_pos (by norm_num)]
      rw [show (1234567.5 : ℚ) * 10 ^ 2 + 1 / 2 = 123456750 + 1 / 2 by norm_num]
      rw [Int.floor_eq_iff]
      constructor <;> norm_num
    simp only [format_number, plainFixed, h1]
    decide
  · have h2 : roundRust ((1234567.5 : ℚ) * 10 ^ 0) = 1234568 := by
      unfold roundRust
      rw [if_pos (by norm_num)]
      rw [show (1234567.5 : ℚ) * 10 ^ 0 + 1 / 2 = 1234568 by norm_num]
      rw [show ((1234568 : ℚ)) = ((1234568 : Int) : ℚ) by norm_num, Int.floor_intCast]
    simp only [format_number, plainFixed, h2]
    decide

/-- Claim C5, as frozen, is REFUTED by this dataset, because the composite
key `"{year}|{type}"` is split at EVERY `'|'` and `parts[1]` truncates a work
type containing `'|'`: the only non-2021 group is `(2022, "X|Y")`, whose type
has no 2021 group at all (so the claim demands `yoy_change = 0` for it, and
the 2021 group gets 0 by the year test), yet the produced rows' yoy values
are `[0, 300]` — the `"X|Y"` group's row reconstructs its type as `"X"` and
borrows the 2021 baseline (100) of type `"X"`, giving
`(400 − 100)/100 × 100 = 300 ≠ 0`. -/
theorem c5_counterexample :
    specBaseline c5Recs "X|Y" = none ∧
    (c5Recs.filter (fun r => ¬ r.funding_year = 2021)).map (fun r => r.type_of_work) =
      ["X|Y"] ∧
    (report3Temps c5Recs).map (fun t => t.yoy_change) = [0, 300] := by
  refine ⟨by decide, by decide, ?_⟩
  have hg : report3Groups c5Recs =
      [(("2021|X" : String).data, [c5R1]), (("2022|X|Y" : String).data, [c5R2])] := by
    decide
  have hkt1 : keyType ("2021|X" : String).data = "X" := by decide
  have hky1 : keyYear ("2021|X" : String).data = 2021 := by decide
  have hkt2 : keyType ("2022|X|Y" : String).data = "X" := by decide
  have hky2 : keyYear ("2022|X|Y" : String).data = 2022 := by decide
  have hyt : ytLookup [(("2021|X" : String).data, [c5R1]),
      (("2022|X|Y" : String).data, [c5R2])] "X" 2021 = some 100 := by
    unfold ytLookup
    rw [List.filterMap_cons, List.filterMap_cons, List.filterMap_nil,
      if_pos ⟨hkt1, hky1⟩, if_neg (fun hcon => by rw [hky2] at hcon; exact absurd hcon.2 (by decide))]
    have : calculate_average ([c5R1].map (fun r => r.cost_savings)) = 100 := by
      norm_num [calculate_average, c5R1]
    rw [this]
    rfl
  unfold report3Temps
  rw [hg]
  simp only [List.map_cons, List.map_nil]
  have h1 : (mkReport3Temp [(("2021|X" : String).data, [c5R1]),
      (("2022|X|Y" : String).data, [c5R2])] (("2021|X" : String).data, [c5R1])).yoy_change
      = 0 := by
    show (match ytLookup [(("2021|X" : String).data, [c5R1]),
        (("2022|X|Y" : String).data, [c5R2])] (keyType ("2021|X" : String).data) 2021 with
      | some baseline =>
        if ¬ keyYear ("2021|X" : String).data = 2021 ∧ ¬ baseline = 0 then
          (calculate_average ([c5R1].map (fun r => r.cost_savings)) - baseline) /
            |baseline| * 100
        else (0 : ℚ)
      | none => (0 : ℚ)) = (0 : ℚ)
    rw [hkt1, hyt]
    simp [hky1]
  have h2 : (mkReport3Temp [(("2021|X" : String).data, [c5R1]),
      (("2022|X|Y" : String).data, [c5R2])] (("2022|X|Y" : String).data, [c5R2])).yoy_change
      = 300 := by
    show (match ytLookup [(("2021|X" : String).data, [c5R1]),
        (("2022|X|Y" : String).data, [c5R2])] (keyType ("2022|X|Y" : String).data) 2021 with
      | some baseline =>
        if ¬ keyYear ("2022|X|Y" : String).data = 2021 ∧ ¬ baseline = 0 then
          (calculate_average ([c5R2].map (fun r => r.cost_savings)) - baseline) /
            |baseline| * 100
        else (0 : ℚ)
      | none => (0 : ℚ)) = (300 : ℚ)
    rw [hkt2, hyt]
    have hcond : ¬ keyYear ("2022|X|Y" : String).data = 2021 ∧ ¬ (100 : ℚ) = 0 := by
      constructor
      · rw [hky2]; decide
      · norm_num
    show (if ¬ keyYear ("2022|X|Y" : String).data = 2021 ∧ ¬ (100 : ℚ) = 0 then
      (calculate_average ([c5R2].map (fun r => r.cost_savings)) - 100) / |(100 : ℚ)| * 100
      else 0) = 300
    rw [if_pos hcond]
    norm_num [calculate_average, c5R2]
  rw [h1, h2]

/-- Claim C5 (amended): provided no record's type_of_work contains the key
separator `'|'`, every Report 3 group row gets the claimed year-over-year
change: `(avg_savings − baseline)/|baseline| × 100` when the group's year is
not 2021 and its type's 2021 baseline exists and is nonzero, else 0; the
row's reconstructed year and type agree with the group's records. -/
theorem c5_yoy_change (records : List ProcessedRecord)
    (hp : ∀ r ∈ records, ('|' : Char) ∉ r.type_of_work.data)
    (k : List Char) (g : List ProcessedRecord) (hkg : (k, g) ∈ report3Groups records)
    (r : ProcessedRecord) (hr : r ∈ g) :
    mkReport3Temp (report3Groups records) (k, g) ∈ report3Temps records ∧
    (mkReport3Temp (report3Groups records) (k, g)).funding_year = r.funding_year ∧
    (mkReport3Temp (report3Groups records) (k, g)).type_of_work = r.type_of_work ∧
    (mkReport3Temp (report3Groups records) (k, g)).yoy_change =
      (match specBaseline records r.type_of_work with
       | some b =>
         if ¬ r.funding_year = 2021 ∧ ¬ b = 0 then
           ((mkReport3Temp (report3Groups records) (k, g)).avg_savings - b) / |b| * 100
         else 0
       | none => 0) := by
  have hrrec := mem_of_mem_group (f := report3Key) hkg hr
  have hpr := hp r hrrec.1
  have hk : k = intToChars r.funding_year ++ '|' :: r.type_of_work.data := by
    rw [← hrrec.2]
    rfl
  have hky : keyYear k = r.funding_year := by
    rw [hk]
    exact keyYear_recon _ _ hpr
  have hkt : keyType k = r.type_of_work := by
    rw [hk]
    exact keyType_recon _ _ hpr
  refine ⟨List.mem_map_of_mem _ hkg, hky, hkt, ?_⟩
  show (match ytLookup (report3Groups records) (keyType k) 2021 with
    | some baseline =>
      if ¬ keyYear k = 2021 ∧ ¬ baseline = 0 then
        (calculate_average (g.map (fun x : ProcessedRecord => x.cost_savings)) - baseline) /
          |baseline| * 100
      else (0 : ℚ)
    | none => (0 : ℚ)) = _
  rw [hkt, hky, ytLookup_eq_specBaseline records hp r.type_of_work hpr]
  rfl

/-- Witness for the amended claim C5 at a pipe-free two-group dataset. -/
theorem c5_witness :
    mkReport3Temp (report3Groups c5WRecs) (("2022|X" : String).data, [c5W2]) ∈
      report3Temps c5WRecs ∧
    (mkReport3Temp (report3Groups c5WRecs)
      (("2022|X" : String).data, [c5W2])).funding_year = c5W2.funding_year ∧
    (mkReport3Temp (report3Groups c5WRecs)
      (("2022|X" : String).data, [c5W2])).type_of_work = c5W2.type_of_work ∧
    (mkReport3Temp (report3Groups c5WRecs)
      (("2022|X" : String).data, [c5W2])).yoy_change =
      (match specBaseline c5WRecs c5W2.type_of_work with
       | some b =>
         if ¬ c5W2.funding_year = 2021 ∧ ¬ b = 0 then
           ((mkReport3Temp (report3Groups c5WRecs)
             (("2022|X" : String).data, [c5W2])).avg_savings - b) / |b| * 100
         else 0
       | none => 0) :=
  c5_yoy_change c5WRecs (by decide) (("2022|X" : String).data) [c5W2] (by decide)
    c5W2 (by decide)

end MCO2
